import Mathlib

/-!
# ceen: event envelope, type registry and event store

A shallow embedding of the Go packages `types`, `codec`, `id` and `ceen`
(files `types/registry.go`, `codec/codec.go`, `id/id.go`, `ceen.go`,
`event_store.go`).

Modelling conventions.

* A Go interface value (`any`) is `Option Value`: `none` is the nil interface,
  `some v` carries the runtime type (`reflect.TypeOf`) and the state of the
  value.  For a pointer the state is the state of its pointee; pointer identity
  is not modelled.
* Go maps are association lists in which the first binding of a key is the
  live one, so `m[k] = v` is `(k, v) :: m`.  The argument of `NewRegistry` is the
  list of the map's entries in the order in which `range` visits them.
* The collaborators (NATS connection, JetStream context, subscription, the
  `nuid` generator, the codecs `codec.JSON` and `codec.Binary`, `encoding/json`,
  `msg.Metadata`) are parameters.  They are deterministic and do not panic.
* `*Type` and `*nats.Msg` arguments are non-nil pointers.  A nil `*Event` in
  the batch handed to `Append`, a nil `*nats.PubAck` and a nil `*natsStoredMsg`
  are modelled, as `none`.
* `uint64` sequence numbers are natural numbers; the code performs no arithmetic
  on them.
-/

namespace CeenGo

/-! ## Values and runtime types -/

/-- Byte slices, `[]byte`. -/
abbrev Bytes := List Nat

/-- The kinds of `reflect.Kind` that the code distinguishes. -/
inductive Kind where
  | Struct
  | Slice
  | Ptr
  | Other
  deriving DecidableEq, Repr

/-- Runtime types, `reflect.Type`. -/
inductive RType where
  | struct (name : String)
  | bytes
  | basic (name : String)
  | ptr (elem : RType)
  deriving DecidableEq, Repr

/-- The method `rt.Kind()`. -/
def RType.Kind : RType → Kind
  | .struct _ => .Struct
  | .bytes => .Slice
  | .basic _ => .Other
  | .ptr _ => .Ptr

/-- The method `rt.Elem()`; `none` where `reflect` panics. -/
def RType.Elem : RType → Option RType
  | .ptr e => some e
  | _ => none

/-- The type a value is reached at after following a pointer, if it is one. -/
def RType.pointee : RType → RType
  | .ptr e => e
  | t => t

/-- A non-nil Go value: its runtime type and its state. -/
structure Value where
  rtype : RType
  state : Bytes
  deriving DecidableEq, Repr

/-- An interface value, `any`. -/
abbrev Any := Option Value

/-! ## Errors and outcomes -/

/-- The texts that follow `ErrTypeNotValid` in `Registry.validate`. -/
inductive NotValid where
  | missingName
  | invalidChars (name : String)
  | bare (name : String)
  | initReturnsNil (name : String)
  | notPointer (name : String)
  | marshalFailed (name : String) (cause : String)
  | unmarshalFailed (name : String) (cause : String)
  deriving DecidableEq, Repr

/-- The errors the packages build or pass on. -/
inductive Err where
  | dataRequired
  | typeRequired
  | wrongType (data : Value)
  | noTypeForStruct (ref : Option RType)
  | typeNotRegistered (eventType : String)
  | typeNotValid (why : NotValid)
  | codecNotRegistered (codecName : String)
  | marshalError (rt : RType) (cause : String)
  | codecError (cause : String)
  | validate (cause : String)
  | wrongLastSequence
  | transport (text : String)
  | contextDone
  | metadata (cause : String)
  | json (cause : String)
  | api (description : String) (code : Int)
  deriving DecidableEq, Repr

/-- What a call ends in: a result, an error value, or a nil-pointer panic.
`nilEvent` is the panic of `wrapEvent` at `event.Data` on a nil `*Event`;
`nilDeref` is any other one (the read `ack.Sequence` of a nil acknowledgment in
`Append`, `lastMsg.Sequence` of a nil message in `Load`). -/
inductive Outcome (α : Type) where
  | ok (a : α)
  | error (e : Err)
  | nilDeref
  | nilEvent
  deriving Repr

/-! ## Package `codec` -/

/-- The interface `codec.Codec`.  `Unmarshal b v` yields the state that the
target `v` holds after decoding `b` into it. -/
structure Codec where
  Name : String
  Marshal : Any → Except String Bytes
  Unmarshal : Bytes → Any → Except String Bytes

/-- The package-level codecs `codec.JSON` and `codec.Binary`. -/
structure CodecPkg where
  JSON : Codec
  Binary : Codec

/-- The variable `codec.Default`. -/
def CodecPkg.Default (p : CodecPkg) : Codec := p.JSON

/-- The map `codec.Codecs`, a literal with the keys `JSON.Name()` and
`Binary.Name()` in this order. -/
def CodecPkg.Codecs (p : CodecPkg) (name : String) : Option Codec :=
  if name = p.Binary.Name then some p.Binary
  else if name = p.JSON.Name then some p.JSON
  else none

/-! ## Package `types` -/

/-- The struct `types.Type`; `Init = none` is a nil function. -/
structure TypeDec where
  Init : Option (Unit → Any)

/-- The struct `types.Registry`. -/
structure Registry where
  rtypes : List (RType × String)
  types : List (String × TypeDec)
  codec : Codec

/-- A character of the class `[\w-]`. -/
def isNameChar (c : Char) : Bool :=
  c.isAlphanum || c == '_' || c == '-'

/-- Matcher for `^[\w-]+(\.[\w-]+)*$`: the flag tells whether the segment being
read is non-empty. -/
def nameRegexRun : List Char → Bool → Bool
  | [], seg => seg
  | c :: cs, seg =>
    if c = '.' then seg && nameRegexRun cs false
    else if isNameChar c then nameRegexRun cs true
    else false

/-- The call `nameRegex.MatchString(name)`. -/
def nameRegexMatchString (name : String) : Bool :=
  nameRegexRun name.toList false

/-- The function `validateTypeName`. -/
def validateTypeName (name : String) : Except Err Unit :=
  if !nameRegexMatchString name then .error (.typeNotValid (.invalidChars name))
  else .ok ()

/-- The method `Registry.Lookup`. -/
def Registry.Lookup (r : Registry) (v : Any) : Except Err String :=
  match v with
  | none => .error (.noTypeForStruct none)
  | some d =>
    match r.rtypes.lookup d.rtype with
    | none => .error (.noTypeForStruct (some d.rtype))
    | some t => .ok t

/-- The method `Registry.Init`. -/
def Registry.Init (r : Registry) (eventType : String) : Except Err Any :=
  match r.types.lookup eventType with
  | none => .error (.typeNotRegistered eventType)
  | some t =>
    match t.Init with
    | none => .ok none
    | some init => .ok (init ())

/-- The method `Registry.validate`. -/
def Registry.validate (r : Registry) (name : String) (typeDec : TypeDec) : Except Err Unit :=
  if name = "" then .error (.typeNotValid .missingName)
  else
    match validateTypeName name with
    | .error e => .error e
    | .ok _ =>
      match typeDec.Init with
      | none => .error (.typeNotValid (.bare name))
      | some init =>
        match init () with
        | none => .error (.typeNotValid (.initReturnsNil name))
        | some v =>
          if v.rtype.Kind ≠ .Ptr then .error (.typeNotValid (.notPointer name))
          else if v.rtype.Elem.map RType.Kind ≠ some .Struct then
            .error (.typeNotValid (.bare name))
          else
            match r.codec.Marshal (some v) with
            | .error e => .error (.typeNotValid (.marshalFailed name e))
            | .ok b =>
              match r.codec.Unmarshal b (some v) with
              | .error e => .error (.typeNotValid (.unmarshalFailed name e))
              | .ok _ => .ok ()

/-- The method `Registry.addType`; `none` where it would panic (a nil `Init`, a
nil value, or `Elem` of a type that has none). -/
def Registry.addType (r : Registry) (name : String) (typeDec : TypeDec) : Option Registry :=
  match typeDec.Init with
  | none => none
  | some init =>
    match init () with
    | none => none
    | some v =>
      match v.rtype.Elem with
      | none => none
      | some el =>
        some { rtypes := (el, name) :: (v.rtype, name) :: r.rtypes
               types := (name, typeDec) :: r.types
               codec := r.codec }

/-- The method `Registry.Marshal`. -/
def Registry.Marshal (r : Registry) (data : Any) : Except Err Bytes :=
  match r.Lookup data with
  | .error e => .error e
  | .ok _ =>
    match r.codec.Marshal data with
    | .error e => .error (.marshalError (data.map Value.rtype |>.getD .bytes) e)
    | .ok b => .ok b

/-- The method `Registry.Codec`. -/
def Registry.Codec (r : Registry) : Codec := r.codec

/-- The loop of `NewRegistry` over the entries still to visit. -/
def NewRegistry.loop (r : Registry) : List (String × TypeDec) → Outcome Registry
  | [] => .ok r
  | (n, typeDec) :: rest =>
    match r.validate n typeDec with
    | .error e => .error e
    | .ok _ =>
      match r.addType n typeDec with
      | none => .nilDeref
      | some r' => NewRegistry.loop r' rest

/-- The function `NewRegistry`; `typeDecs` lists the entries of the map in
iteration order. -/
def NewRegistry (p : CodecPkg) (typeDecs : List (String × TypeDec)) : Outcome Registry :=
  NewRegistry.loop { rtypes := [], types := [], codec := p.Default } typeDecs

/-! ## Package `id` -/

/-- The interface `id.ID`: `New n` is what the call numbered `n` returns. -/
structure IDGen where
  New : Nat → String

/-! ## Transport messages -/

/-- The type `nats.Header`, a map from keys to value lists. -/
structure Header where
  entries : List (String × List String)
  deriving DecidableEq, Repr

/-- The method `Header.Get`: the first value of the key, or the empty string. -/
def Header.Get (h : Header) (key : String) : String :=
  match h.entries.lookup key with
  | some (v :: _) => v
  | _ => ""

/-- The method `Header.Set`. -/
def Header.Set (h : Header) (key value : String) : Header :=
  ⟨(key, [value]) :: h.entries⟩

/-- The struct `nats.Msg`. -/
structure Msg where
  Subject : String
  Reply : String
  Header : Header
  Data : Bytes
  deriving DecidableEq, Repr

/-- The function `nats.NewMsg`. -/
def NewMsg (subject : String) : Msg :=
  { Subject := subject, Reply := "", Header := ⟨[]⟩, Data := [] }

/-- The constant `nats.MsgIdHdr`. -/
def MsgIdHdr : String := "Nats-Msg-Id"

/-- The constant `eventTypeHdr`. -/
def eventTypeHdr : String := "ceen-type"

/-- The constant `eventCodecHdr`. -/
def eventCodecHdr : String := "ceen-codec"

/-- The struct `nats.PubAck`. -/
structure PubAck where
  Stream : String
  Sequence : Nat
  deriving DecidableEq, Repr

/-! ## Package `ceen` -/

/-- The struct `Event`; `Typ` is its field `Type`. -/
structure Event where
  ID : String
  Typ : String
  Data : Any
  Subject : String
  Sequence : Nat
  deriving DecidableEq, Repr

/-- The struct `natsApiError`. -/
structure natsApiError where
  Code : Int
  ErrCode : Nat
  Description : String
  deriving DecidableEq, Repr

/-- The struct `natsStoredMsg`. -/
structure natsStoredMsg where
  Sequence : Nat
  deriving DecidableEq, Repr

/-- The struct `natsGetMsgRequest`. -/
structure natsGetMsgRequest where
  LastBySubject : String
  deriving DecidableEq, Repr

/-- The struct `natsGetMsgResponse`; the two pointers may be nil. -/
structure natsGetMsgResponse where
  Typ : String
  Error : Option natsApiError
  Message : Option natsStoredMsg
  deriving DecidableEq, Repr

/-- Library code the package calls: the codecs, the method set of the
interface `validator` (per runtime type), `msg.Metadata().Sequence.Stream`, and
`encoding/json` on the two API structs. -/
structure Lib where
  codec : CodecPkg
  Validate : RType → Option (Value → Option String)
  Metadata : Msg → Except String Nat
  jsonMarshal : natsGetMsgRequest → Bytes
  jsonUnmarshal : Bytes → Except String natsGetMsgResponse

/-- The struct `Ceen`, without its connection fields. -/
structure Ceen where
  types : Option Registry
  id : IDGen

/-- The struct `EventStore`. -/
structure EventStore where
  c : Ceen
  name : String

/-- The method `EventStore.wrapEvent`.  The number threaded through counts the
calls of `id.New` made so far. -/
def wrapEvent (L : Lib) (c : Ceen) (event : Event) (idCalls : Nat) : Except Err (Event × Nat) :=
  match event.Data with
  | none => .error .dataRequired
  | some d =>
    let typed : Except Err Event :=
      match c.types with
      | none => if event.Typ = "" then .error .typeRequired else .ok event
      | some r =>
        match r.Lookup event.Data with
        | .error e => .error e
        | .ok t =>
          if event.Typ = "" then .ok { event with Typ := t }
          else if event.Typ ≠ t then .error (.wrongType d)
          else .ok event
    match typed with
    | .error e => .error e
    | .ok ev =>
      let checked : Option String :=
        match L.Validate d.rtype with
        | some validate => validate d
        | none => none
      match checked with
      | some e => .error (.validate e)
      | none =>
        if ev.ID = "" then .ok ({ ev with ID := c.id.New idCalls }, idCalls + 1)
        else .ok (ev, idCalls)

/-- The method `EventStore.packEvent`. -/
def packEvent (L : Lib) (c : Ceen) (subject : String) (event : Event) : Except Err Msg :=
  let enc : Except Err Bytes × String :=
    match c.types with
    | none =>
      (match L.codec.Binary.Marshal event.Data with
        | .error e => .error (.codecError e)
        | .ok b => .ok b,
       L.codec.Binary.Name)
    | some r => (r.Marshal event.Data, r.Codec.Name)
  match enc.1 with
  | .error e => .error e
  | .ok data =>
    let msg := { NewMsg subject with Data := data }
    let h1 := msg.Header.Set MsgIdHdr event.ID
    let h2 := h1.Set eventTypeHdr event.Typ
    let h3 := h2.Set eventCodecHdr enc.2
    .ok { msg with Header := h3 }

/-- What `UnpackEvent` does with a payload after the codec has been found. -/
inductive Step where
  | typeInit (eventType : String)
  | decode (codecName : String) (payload : Bytes)
  | metadata
  deriving DecidableEq, Repr

/-- The method `Ceen.UnpackEvent`, with the list of the steps it took after
the codec lookup. -/
def UnpackEventT (L : Lib) (c : Ceen) (msg : Msg) : Except Err Event × List Step :=
  let eventType := msg.Header.Get eventTypeHdr
  let codecName := msg.Header.Get eventCodecHdr
  match L.codec.Codecs codecName with
  | none => (.error (.codecNotRegistered codecName), [])
  | some codc =>
    let dec : Except Err Any × List Step :=
      match c.types with
      | none =>
        match codc.Unmarshal msg.Data (some ⟨.ptr .bytes, []⟩) with
        | .error e => (.error (.codecError e), [.decode codc.Name msg.Data])
        | .ok b => (.ok (some ⟨.bytes, b⟩), [.decode codc.Name msg.Data])
      | some r =>
        match r.Init eventType with
        | .error e => (.error e, [.typeInit eventType])
        | .ok v =>
          match codc.Unmarshal msg.Data v with
          | .error e =>
            (.error (.codecError e), [.typeInit eventType, .decode codc.Name msg.Data])
          | .ok st =>
            (.ok (v.map fun d => { d with state := st }),
             [.typeInit eventType, .decode codc.Name msg.Data])
    match dec.1 with
    | .error e => (.error e, dec.2)
    | .ok data =>
      let seq : Except Err Nat × List Step :=
        if msg.Reply ≠ "" then
          match L.Metadata msg with
          | .error e => (.error (.metadata e), [.metadata])
          | .ok s => (.ok s, [.metadata])
        else (.ok 0, [])
      match seq.1 with
      | .error e => (.error e, dec.2 ++ seq.2)
      | .ok s =>
        (.ok { ID := msg.Header.Get MsgIdHdr
               Typ := msg.Header.Get eventTypeHdr
               Data := data
               Subject := msg.Subject
               Sequence := s },
         dec.2 ++ seq.2)

/-- The method `Ceen.UnpackEvent`. -/
def UnpackEvent (L : Lib) (c : Ceen) (msg : Msg) : Except Err Event :=
  (UnpackEventT L c msg).1

/-! ## Append -/

/-- Whether `text` starts with `pat`. -/
def startsWith : List Char → List Char → Bool
  | _, [] => true
  | [], _ :: _ => false
  | c :: cs, p :: ps => c == p && startsWith cs ps

/-- Whether `pat` occurs in `text`. -/
def containsChars : List Char → List Char → Bool
  | [], pat => startsWith [] pat
  | c :: cs, pat => startsWith (c :: cs) pat || containsChars cs pat

/-- The function `strings.Contains`. -/
def stringsContains (s substr : String) : Bool :=
  containsChars s.toList substr.toList

/-- The JetStream context as far as `Append` uses it: `PublishMsg` on a
collaborator in state `σ`, given the message and the stream named by
`nats.ExpectStream`; a successful call yields a `*nats.PubAck`, possibly nil. -/
structure JetStream (σ : Type) where
  PublishMsg : σ → Msg → String → Except String (Option PubAck) × σ

/-- What `Append` leaves behind: the collaborator, the number of `id.New`
calls, and the messages handed to `PublishMsg`, oldest first. -/
structure AppendState (σ : Type) where
  js : σ
  idCalls : Nat
  publishCalls : List Msg

/-- The loop of `EventStore.Append` and the final `return ack.Sequence, nil`;
`ack` is the local variable of that name.  The batch is a list of `*Event`; on
a nil one `wrapEvent` panics at its first statement. -/
def Append.loop {σ : Type} (L : Lib) (J : JetStream σ) (es : EventStore) (subject : String) :
    List (Option Event) → Option PubAck → AppendState σ → Outcome Nat × AppendState σ
  | [], ack, st =>
    (match ack with
      | none => .nilDeref
      | some a => .ok a.Sequence,
     st)
  | none :: _, _, st => (.nilEvent, st)
  | some event :: rest, _, st =>
    match wrapEvent L es.c event st.idCalls with
    | .error err => (.error err, st)
    | .ok (e, n) =>
      match packEvent L es.c subject e with
      | .error err => (.error err, { st with idCalls := n })
      | .ok msg =>
        match J.PublishMsg st.js msg es.name with
        | (.error err, js') =>
          (if stringsContains err "wrong last sequence" then .error .wrongLastSequence
           else .error (.transport err),
           { js := js', idCalls := n, publishCalls := st.publishCalls ++ [msg] })
        | (.ok ack', js') =>
          Append.loop L J es subject rest ack'
            { js := js', idCalls := n, publishCalls := st.publishCalls ++ [msg] }

/-- The method `EventStore.Append`. -/
def Append {σ : Type} (L : Lib) (J : JetStream σ) (es : EventStore) (subject : String)
    (events : List (Option Event)) (st : AppendState σ) : Outcome Nat × AppendState σ :=
  Append.loop L J es subject events none st

/-! ## Load -/

/-- The connection as far as `Load` uses it.  `RequestWithContext` yields the
reply's `Data`; `SubscribeSync` yields the subscription, given as the results of
its successive `NextMsgWithContext` calls. -/
structure Conn where
  RequestWithContext : String → Bytes → Except String Bytes
  SubscribeSync : String → Except String (List (Except String Msg))

/-- The calls `Load` makes on the connection. -/
inductive Call where
  | request (subject : String) (data : Bytes)
  | subscribe (subject : String)
  | nextMsg
  | unsubscribe
  deriving DecidableEq, Repr

/-- The method `EventStore.lastMsgForSubject`; the result pointer may be nil. -/
def lastMsgForSubject (L : Lib) (nc : Conn) (es : EventStore) (subject : String) :
    Except Err (Option natsStoredMsg) :=
  let rsubject := "$JS.API.STREAM.MSG.GET." ++ es.name
  let data := L.jsonMarshal { LastBySubject := subject }
  match nc.RequestWithContext rsubject data with
  | .error e => .error (.transport e)
  | .ok msgData =>
    match L.jsonUnmarshal msgData with
    | .error e => .error (.json e)
    | .ok rep =>
      match rep.Error with
      | some apiErr =>
        if apiErr.Code = 404 then .ok (some { Sequence := 0 })
        else .error (.api apiErr.Description apiErr.Code)
      | none => .ok rep.Message

/-- The `for` loop of `EventStore.Load`: the deliveries still to come, the
target sequence and the events gathered so far; it also counts the
`NextMsgWithContext` calls.  When no delivery is left the call waits for the
context to end. -/
def Load.loop (L : Lib) (c : Ceen) (target : Nat) :
    List (Except String Msg) → List Event → Outcome (List Event) × Nat
  | [], _ => (.error .contextDone, 1)
  | .error e :: _, _ => (.error (.transport e), 1)
  | .ok msg :: rest, events =>
    match UnpackEvent L c msg with
    | .error e => (.error e, 1)
    | .ok event =>
      if event.Sequence = target then (.ok (events ++ [event]), 1)
      else
        let r := Load.loop L c target rest (events ++ [event])
        (r.1, r.2 + 1)

/-- The method `EventStore.Load`, with the calls it made on the connection. -/
def Load (L : Lib) (nc : Conn) (es : EventStore) (subject : String) :
    Outcome (List Event × Nat) × List Call :=
  let req := Call.request ("$JS.API.STREAM.MSG.GET." ++ es.name)
    (L.jsonMarshal { LastBySubject := subject })
  match lastMsgForSubject L nc es subject with
  | .error e => (.error e, [req])
  | .ok none => (.nilDeref, [req])
  | .ok (some lastMsg) =>
    if lastMsg.Sequence = 0 then (.ok ([], 0), [req])
    else
      match nc.SubscribeSync subject with
      | .error e => (.error (.transport e), [req, .subscribe subject])
      | .ok sub =>
        let r := Load.loop L es.c lastMsg.Sequence sub []
        let calls := [req, .subscribe subject] ++ List.replicate r.2 .nextMsg ++ [.unsubscribe]
        match r.1 with
        | .ok events => (.ok (events, lastMsg.Sequence), calls)
        | .error e => (.error e, calls)
        | .nilDeref => (.nilDeref, calls)
        | .nilEvent => (.nilEvent, calls)

/-! ## Notions used in the statements -/

/-- The runtime type of the value that the factory of an entry produces. -/
def TypeDec.rtype (t : TypeDec) : Option RType :=
  match t.Init with
  | none => none
  | some init => (init ()).map Value.rtype

/-- The two bindings `addType` puts into `rtypes` for an entry, newest first. -/
def entryKeys (nt : String × TypeDec) : List (RType × String) :=
  match nt.2.rtype with
  | some (.ptr el) => [(el, nt.1), (.ptr el, nt.1)]
  | _ => []

/-- An entry passes validation, in the words of the specification: the name is
not empty and matches the pattern, the factory is not nil and yields a non-nil
pointer to a struct, and the marshal-then-unmarshal self-test succeeds. -/
def EntryPasses (codec : Codec) (name : String) (typeDec : TypeDec) : Prop :=
  name ≠ "" ∧ nameRegexMatchString name = true ∧
  ∃ init, typeDec.Init = some init ∧
  ∃ v, init () = some v ∧ (∃ s, v.rtype = .ptr (.struct s)) ∧
  ∃ b, codec.Marshal (some v) = .ok b ∧ ∃ st, codec.Unmarshal b (some v) = .ok st

/-- Every event of a batch, in turn, wraps, packs and publishes successfully
(the publish answering with an acknowledgment), starting from a given state:
the relation lists the message published and the acknowledgment received for
each event, and the state reached after the last one. -/
inductive AllSucceed {σ : Type} (L : Lib) (J : JetStream σ) (es : EventStore) (subject : String) :
    List (Option Event) → AppendState σ → List (Msg × PubAck) → AppendState σ → Prop where
  | nil (st : AppendState σ) : AllSucceed L J es subject [] st [] st
  | cons {event e : Event} {n : Nat} {msg : Msg} {ack : PubAck} {j : σ}
      {rest : List (Option Event)} {st st' : AppendState σ} {tr : List (Msg × PubAck)}
      (hwrap : wrapEvent L es.c event st.idCalls = .ok (e, n))
      (hpack : packEvent L es.c subject e = .ok msg)
      (hpub : J.PublishMsg st.js msg es.name = (.ok (some ack), j))
      (hrest : AllSucceed L J es subject rest
        { js := j, idCalls := n, publishCalls := st.publishCalls ++ [msg] } tr st') :
      AllSucceed L J es subject (some event :: rest) st ((msg, ack) :: tr) st'

/-- The message is the one `Append` publishes for the event: the event is not
nil, it wraps, and the wrapped event packs into the message. -/
def PublishedFor (L : Lib) (c : Ceen) (subject : String) (event : Option Event) (msg : Msg) :
    Prop :=
  ∃ ev k e k', event = some ev ∧ wrapEvent L c ev k = .ok (e, k') ∧
    packEvent L c subject e = .ok msg

/-- The codec `packEvent` selects. -/
def selectedCodec (L : Lib) (c : Ceen) : Codec :=
  match c.types with
  | none => L.codec.Binary
  | some r => r.Codec

/-- The target `UnpackEvent` decodes the payload of an event of type name `t`
into: a pointer to a fresh nil byte slice without a registry, and with one the
instance that the factory registered under `t` produces. -/
def decodeTarget (c : Ceen) (t : String) : Option Value :=
  match c.types with
  | none => some ⟨.ptr .bytes, []⟩
  | some r =>
    match r.Init t with
    | .ok v => v
    | .error _ => none

/-- The codec's `Unmarshal` inverts its `Marshal` on the value `d` for the
given target: marshalling `d` succeeds, and decoding the bytes into the target
leaves the state of `d` in it. -/
def Inverts (codec : Codec) (d : Value) (target : Option Value) : Prop :=
  ∃ b, codec.Marshal (some d) = .ok b ∧
    ∀ v, target = some v → codec.Unmarshal b (some v) = .ok d.state

/-- The data an event is to carry after a round trip: the byte slice itself
without a registry, and with one a pointer to an instance of the registered
struct type that holds the same state. -/
def roundTripData (c : Ceen) (d : Value) : Value :=
  match c.types with
  | none => d
  | some _ => ⟨.ptr d.rtype.pointee, d.state⟩

/-! ## Concrete instances -/

/-- Modelled from the spec: the default structured codec (`codec.JSON`, whose
file is not part of the sources read), reduced to a codec that writes the state
of a value and reads it back into any non-nil target. -/
def demoJSON : Codec :=
  { Name := "json"
    Marshal := fun v =>
      match v with
      | none => .ok []
      | some d => .ok d.state
    Unmarshal := fun b v =>
      match v with
      | none => .error "json: Unmarshal(nil)"
      | some _ => .ok b }

/-- Modelled from the spec: the raw-binary passthrough codec (`codec.Binary`,
whose file is not part of the sources read): byte slices pass through, any
other value or target is refused. -/
def demoBinary : Codec :=
  { Name := "binary"
    Marshal := fun v =>
      match v with
      | some ⟨.bytes, st⟩ => .ok st
      | _ => .error "must be []byte"
    Unmarshal := fun b v =>
      match v with
      | some ⟨.ptr .bytes, _⟩ => .ok b
      | _ => .error "must be *[]byte" }

/-- The two codecs above as the package `codec`. -/
def demoPkg : CodecPkg := ⟨demoJSON, demoBinary⟩

/-- A factory `func() any { return &S{} }` for the struct named `s`. -/
def demoType (s : String) : TypeDec :=
  ⟨some fun _ => some ⟨.ptr (.struct s), []⟩⟩

/-- The registry entries of the test `TestLibWithRegistry`. -/
def demoDecs : List (String × TypeDec) :=
  [("test-event-created", demoType "TestEventCreated")]

/-- A generator that hands out one fixed non-empty identifier. -/
def demoGen : IDGen := ⟨fun _ => "nuid-0001"⟩

/-- Library stubs: no type has a `Validate` method, the stream sequence of a
delivered message is the length of its reply subject, a request is encoded as
its subject, and a reply `[0, code]` decodes to an API error, `[1, seq]` to a
stored message. -/
def demoLib : Lib :=
  { codec := demoPkg
    Validate := fun _ => none
    Metadata := fun msg => .ok msg.Reply.length
    jsonMarshal := fun req => req.LastBySubject.toList.map Char.toNat
    jsonUnmarshal := fun b =>
      match b with
      | [0, code] => .ok ⟨"error", some ⟨code, 0, "no message found"⟩, none⟩
      | [1, seq] => .ok ⟨"message", none, some ⟨seq⟩⟩
      | _ => .error "unexpected end of JSON input" }

/-- A client without a type registry, as in `TestLib`. -/
def plainCeen : Ceen := ⟨none, demoGen⟩

/-- The registry `NewRegistry` builds from `demoDecs`. -/
def demoRegistry : Registry :=
  ⟨[(.struct "TestEventCreated", "test-event-created"),
    (.ptr (.struct "TestEventCreated"), "test-event-created")], demoDecs, demoJSON⟩

/-- A client with that registry, as in `TestLibWithRegistry`. -/
def typedCeen : Ceen := ⟨some demoRegistry, demoGen⟩

/-- A stream that stores every message: the state is the last sequence. -/
def demoJS : JetStream Nat :=
  ⟨fun last _ stream => (.ok (some ⟨stream, last + 1⟩), last + 1)⟩

/-- The event of `TestLibWithRegistry`: a pointer to a `TestEventCreated`. -/
def createdEvent : Event :=
  ⟨"", "", some ⟨.ptr (.struct "TestEventCreated"), [1, 2, 3]⟩, "", 0⟩

/-- The same data under a type name that is not the registered one. -/
def mistypedEvent : Event :=
  ⟨"", "order-created", some ⟨.ptr (.struct "TestEventCreated"), [1, 2, 3]⟩, "", 0⟩

/-- The store of `TestLibWithRegistry`. -/
def typedStore : EventStore := ⟨typedCeen, "testevents"⟩

/-- The message `packEvent` builds for `createdEvent` once wrapped. -/
def createdMsg : Msg :=
  { Subject := "testevents.0"
    Reply := ""
    Header := ⟨[("ceen-codec", ["json"]), ("ceen-type", ["test-event-created"]),
      ("Nats-Msg-Id", ["nuid-0001"])]⟩
    Data := [1, 2, 3] }

/-- The event of `TestLib`: a byte slice under a type named by the caller. -/
def bytesEvent : Event :=
  ⟨"", "test_item", some ⟨.bytes, [102, 105, 114, 115, 116]⟩, "", 0⟩

/-- An event whose data is a string, with its type named by the caller. -/
def textEvent : Event :=
  ⟨"", "note", some ⟨.basic "string", [104, 105]⟩, "", 0⟩

/-- The library stubs with an arbitrary codec in the place of `codec.Binary`. -/
def libWith (B : Codec) : Lib :=
  { demoLib with codec := ⟨demoJSON, B⟩ }

/-- The test event after `wrapEvent`. -/
def wrappedEvent : Event :=
  { createdEvent with ID := "nuid-0001", Typ := "test-event-created" }

/-- The message `createdMsg` as a subscription delivers it at stream sequence
`k`: the reply subject has `k` characters. -/
def delivered (k : Nat) : Msg :=
  { createdMsg with Reply := String.mk (List.replicate k 'a') }

/-- The event `UnpackEvent` yields for `delivered k`. -/
def loadedEvent (k : Nat) : Event :=
  { wrappedEvent with Subject := "testevents.0", Sequence := k }

/-- A connection whose stream holds `last` messages of the subject (none when
`last = 0`, answered with code 404) and whose subscription delivers three. -/
def demoConn (last : Nat) : Conn :=
  { RequestWithContext := fun _ _ => if last = 0 then .ok [0, 404] else .ok [1, last]
    SubscribeSync := fun _ => .ok [.ok (delivered 1), .ok (delivered 2), .ok (delivered 3)] }

/-- A codec in the manner of `encoding/json`, which merges into its target:
decoding overwrites the leading part of the state that the target holds and
keeps what lies beyond the input. -/
def mergeJSON : Codec :=
  { Name := "json"
    Marshal := fun v =>
      match v with
      | none => .ok []
      | some d => .ok d.state
    Unmarshal := fun b v =>
      match v with
      | none => .error "json: Unmarshal(nil)"
      | some t => .ok (b ++ t.state.drop b.length) }

/-- The library stubs with the merging codec as `codec.JSON`. -/
def mergeLib : Lib :=
  { demoLib with codec := ⟨mergeJSON, demoBinary⟩ }

/-- The registry `NewRegistry` builds from `demoDecs` under the merging codec. -/
def mergeRegistry : Registry :=
  ⟨[(.struct "TestEventCreated", "test-event-created"),
    (.ptr (.struct "TestEventCreated"), "test-event-created")], demoDecs, mergeJSON⟩

/-- A client with that registry. -/
def mergeCeen : Ceen := ⟨some mergeRegistry, demoGen⟩

/-- A map with one valid entry and one whose name holds a blank. -/
def badDecs : List (String × TypeDec) :=
  [("order-created", demoType "OrderCreated"), ("order shipped", demoType "OrderShipped")]

/-- Two names registered for one struct type. -/
def sharedDecs : List (String × TypeDec) :=
  [("a", demoType "T"), ("b", demoType "T")]

end CeenGo

namespace CeenGo

/-! # Theorems -/

/-! ## The type registry -/

theorem nameRegex_examples :
    nameRegexMatchString "test-event-created" = true ∧
    nameRegexMatchString "orders.v1.Created_2" = true ∧
    nameRegexMatchString "" = false ∧
    nameRegexMatchString ".a" = false ∧
    nameRegexMatchString "a." = false ∧
    nameRegexMatchString "a..b" = false ∧
    nameRegexMatchString "a b" = false := by
  decide

theorem validate_ok_iff (r : Registry) (n : String) (t : TypeDec) :
    (∃ u, r.validate n t = .ok u) ↔ EntryPasses r.codec n t := by
  unfold Registry.validate EntryPasses validateTypeName
  by_cases hn : n = ""
  · simp [hn]
  · by_cases hm : nameRegexMatchString n = true
    · cases hi : t.Init with
      | none => simp [hn, hm]
      | some init =>
        cases hv : init () with
        | none => simp [hn, hm, hv]
        | some v =>
          obtain ⟨rt, st⟩ := v
          cases rt with
          | ptr el =>
            cases el with
            | struct s =>
              cases hmar : r.codec.Marshal (some ⟨.ptr (.struct s), st⟩) with
              | error e => simp [hn, hm, hv, hmar, RType.Kind, RType.Elem]
              | ok b =>
                cases hum : r.codec.Unmarshal b (some ⟨.ptr (.struct s), st⟩) with
                | error e => simp [hn, hm, hv, hmar, hum, RType.Kind, RType.Elem]
                | ok st' => simp [hn, hm, hv, hmar, hum, RType.Kind, RType.Elem]
            | bytes => simp [hn, hm, hv, RType.Kind, RType.Elem]
            | basic b => simp [hn, hm, hv, RType.Kind, RType.Elem]
            | ptr e => simp [hn, hm, hv, RType.Kind, RType.Elem]
          | struct s => simp [hn, hm, hv, RType.Kind]
          | bytes => simp [hn, hm, hv, RType.Kind]
          | basic b => simp [hn, hm, hv, RType.Kind]
    · simp [hn, hm]

theorem validate_error_of_not_passes (r : Registry) (n : String) (t : TypeDec)
    (h : ¬ EntryPasses r.codec n t) : ∃ e, r.validate n t = .error e := by
  cases hv : r.validate n t with
  | error e => exact ⟨e, rfl⟩
  | ok u => exact absurd ((validate_ok_iff r n t).1 ⟨u, hv⟩) h

theorem addType_of_passes (r : Registry) (n : String) (t : TypeDec)
    (h : EntryPasses r.codec n t) :
    ∃ r1, r.addType n t = some r1 ∧ r1.codec = r.codec ∧
      r1.types = (n, t) :: r.types ∧ r1.rtypes = entryKeys (n, t) ++ r.rtypes := by
  obtain ⟨_, _, init, hi, v, hv, ⟨s, hs⟩, _⟩ := h
  refine ⟨⟨(.struct s, n) :: (.ptr (.struct s), n) :: r.rtypes, (n, t) :: r.types, r.codec⟩,
    ?_, rfl, rfl, ?_⟩
  · simp only [Registry.addType, hi, hv, hs, RType.Elem]
  · simp [entryKeys, TypeDec.rtype, hi, hv, hs]

theorem loop_ok (decs : List (String × TypeDec)) :
    ∀ r r', NewRegistry.loop r decs = .ok r' →
      (∀ nt ∈ decs, EntryPasses r.codec nt.1 nt.2) ∧ r'.codec = r.codec ∧
      r'.types = decs.reverse ++ r.types ∧
      r'.rtypes = decs.reverse.flatMap entryKeys ++ r.rtypes := by
  induction decs with
  | nil =>
    intro r r' h
    simp only [NewRegistry.loop, Outcome.ok.injEq] at h
    subst h
    simp
  | cons d rest ih =>
    intro r r' h
    obtain ⟨n, t⟩ := d
    simp only [NewRegistry.loop] at h
    cases hv : r.validate n t with
    | error e => simp [hv] at h
    | ok u =>
      have hp : EntryPasses r.codec n t := (validate_ok_iff r n t).1 ⟨u, hv⟩
      obtain ⟨r1, ha, hc, ht, hr⟩ := addType_of_passes r n t hp
      simp only [hv, ha] at h
      obtain ⟨h1, h2, h3, h4⟩ := ih r1 r' h
      refine ⟨?_, ?_, ?_, ?_⟩
      · intro nt hnt
        rcases List.mem_cons.1 hnt with rfl | hmem
        · exact hp
        · exact hc ▸ h1 nt hmem
      · exact h2.trans hc
      · simp [h3, ht]
      · simp [h4, hr]

theorem loop_total (decs : List (String × TypeDec)) :
    ∀ r, (∀ nt ∈ decs, EntryPasses r.codec nt.1 nt.2) → ∃ r', NewRegistry.loop r decs = .ok r' := by
  induction decs with
  | nil => intro r _; exact ⟨r, rfl⟩
  | cons d rest ih =>
    intro r h
    obtain ⟨n, t⟩ := d
    have hp : EntryPasses r.codec n t := h (n, t) (List.mem_cons_self _ _)
    obtain ⟨u, hv⟩ := (validate_ok_iff r n t).2 hp
    obtain ⟨r1, ha, hc, _, _⟩ := addType_of_passes r n t hp
    obtain ⟨r', hr'⟩ := ih r1 (fun nt hnt => hc ▸ h nt (List.mem_cons_of_mem _ hnt))
    exact ⟨r', by simp only [NewRegistry.loop, hv, ha, hr']⟩

theorem loop_error (decs : List (String × TypeDec)) :
    ∀ r, (∃ nt ∈ decs, ¬ EntryPasses r.codec nt.1 nt.2) → ∃ e, NewRegistry.loop r decs = .error e := by
  induction decs with
  | nil => intro r h; obtain ⟨_, hm, _⟩ := h; cases hm
  | cons d rest ih =>
    intro r h
    obtain ⟨n, t⟩ := d
    by_cases hp : EntryPasses r.codec n t
    · obtain ⟨u, hv⟩ := (validate_ok_iff r n t).2 hp
      obtain ⟨r1, ha, hc, _, _⟩ := addType_of_passes r n t hp
      obtain ⟨nt, hmem, hnp⟩ := h
      have hrest : ∃ nt ∈ rest, ¬ EntryPasses r1.codec nt.1 nt.2 := by
        rcases List.mem_cons.1 hmem with rfl | hm
        · exact absurd hp hnp
        · exact ⟨nt, hm, hc ▸ hnp⟩
      obtain ⟨e, he⟩ := ih r1 hrest
      exact ⟨e, by simp only [NewRegistry.loop, hv, ha, he]⟩
    · obtain ⟨e, he⟩ := validate_error_of_not_passes r n t hp
      exact ⟨e, by simp only [NewRegistry.loop, he]⟩

/-- C7. Construction of the type registry is all-or-nothing.  For every list of
entries (the map in any iteration order): if some entry fails validation,
`NewRegistry` returns an error, hence no registry; if every entry passes it
returns a registry; and a registry that is returned was built from entries that
all pass and binds every entry name. -/
theorem C7_construction_all_or_nothing (p : CodecPkg) (typeDecs : List (String × TypeDec)) :
    ((∃ nt ∈ typeDecs, ¬ EntryPasses p.Default nt.1 nt.2) →
        ∃ e, NewRegistry p typeDecs = .error e) ∧
    ((∀ nt ∈ typeDecs, EntryPasses p.Default nt.1 nt.2) →
        ∃ r, NewRegistry p typeDecs = .ok r) ∧
    (∀ r, NewRegistry p typeDecs = .ok r →
        (∀ nt ∈ typeDecs, EntryPasses p.Default nt.1 nt.2) ∧
        ∀ nt ∈ typeDecs, ∃ t, r.types.lookup nt.1 = some t) := by
  refine ⟨fun h => loop_error typeDecs _ h, fun h => loop_total typeDecs _ h, ?_⟩
  intro r hr
  obtain ⟨h1, _, h3, _⟩ := loop_ok typeDecs _ r hr
  refine ⟨h1, ?_⟩
  intro nt hnt
  have hmem : nt ∈ r.types := by
    rw [h3]
    simp [hnt]
  cases hl : r.types.lookup nt.1 with
  | some t => exact ⟨t, rfl⟩
  | none =>
    rw [List.lookup_eq_none_iff] at hl
    exact absurd (beq_self_eq_true nt.1) (by simpa using hl nt hmem)

/-- A map with an entry whose name holds a blank is refused, whichever entry
comes first; the map of the test suite yields a registry. -/
theorem C7_construction_all_or_nothing_witness :
    (∃ e, NewRegistry demoPkg badDecs = .error e) ∧
    (∃ e, NewRegistry demoPkg badDecs.reverse = .error e) ∧
    (∃ r, NewRegistry demoPkg demoDecs = .ok r) :=
  ⟨(C7_construction_all_or_nothing demoPkg badDecs).1
      ⟨("order shipped", demoType "OrderShipped"), by simp [badDecs],
        fun h => absurd h.2.1 (by decide)⟩,
    (C7_construction_all_or_nothing demoPkg badDecs.reverse).1
      ⟨("order shipped", demoType "OrderShipped"), by simp [badDecs],
        fun h => absurd h.2.1 (by decide)⟩,
    (C7_construction_all_or_nothing demoPkg demoDecs).2.1 (fun nt hnt => by
      have hnt' : nt = ("test-event-created", demoType "TestEventCreated") := by
        simpa [demoDecs] using hnt
      subst hnt'
      exact ⟨by decide, by decide, _, rfl, _, rfl, ⟨_, rfl⟩, _, rfl, _, rfl⟩)⟩

theorem lookup_of_mem_nodup {β : Type} :
    ∀ (l : List (String × β)) (n : String) (t : β),
      (l.map Prod.fst).Nodup → (n, t) ∈ l → l.lookup n = some t := by
  intro l
  induction l with
  | nil => intro n t _ h; cases h
  | cons d rest ih =>
    intro n t hnd hmem
    obtain ⟨k, v⟩ := d
    rw [List.map_cons, List.nodup_cons] at hnd
    rcases List.mem_cons.1 hmem with heq | hrest
    · cases heq
      simp
    · have hne : n ≠ k := by
        intro h
        subst h
        exact hnd.1 (List.mem_map.2 ⟨(n, t), hrest, rfl⟩)
      have hbeq : (n == k) = false := by simpa using hne
      rw [List.lookup_cons, hbeq]
      exact ih n t hnd.2 hrest

theorem lookup_cons_ne {α β : Type} [DecidableEq α] (k k' : α) (v : β) (l : List (α × β))
    (h : k ≠ k') : ((k', v) :: l).lookup k = l.lookup k := by
  have hb : (k == k') = false := by simpa using h
  rw [List.lookup_cons, hb]

theorem lookup_entryKeys (s : String) :
    ∀ l : List (String × TypeDec),
      (∀ nt ∈ l, ∃ s', nt.2.rtype = some (.ptr (.struct s'))) →
      (l.flatMap entryKeys).lookup (.struct s) =
          (l.find? fun nt => decide (nt.2.rtype = some (.ptr (.struct s)))).map Prod.fst ∧
      (l.flatMap entryKeys).lookup (.ptr (.struct s)) =
          (l.find? fun nt => decide (nt.2.rtype = some (.ptr (.struct s)))).map Prod.fst := by
  intro l
  induction l with
  | nil => intro _; simp
  | cons d rest ih =>
    intro h
    obtain ⟨s', hs'⟩ := h d (List.mem_cons_self _ _)
    obtain ⟨ih1, ih2⟩ := ih (fun nt hnt => h nt (List.mem_cons_of_mem _ hnt))
    have hk : entryKeys d = [(.struct s', d.1), (.ptr (.struct s'), d.1)] := by
      simp [entryKeys, hs']
    rw [List.flatMap_cons, hk, List.find?_cons]
    by_cases hss : s' = s
    · subst hss
      have hd : decide (d.2.rtype = some (.ptr (.struct s'))) = true := by simp [hs']
      rw [hd]
      refine ⟨by simp, ?_⟩
      rw [List.cons_append, lookup_cons_ne _ _ _ _ (by simp)]
      simp
    · have hd : decide (d.2.rtype = some (.ptr (.struct s))) = false := by simp [hs', hss]
      have hss' : s ≠ s' := fun h => hss h.symm
      rw [hd]
      refine ⟨?_, ?_⟩
      · rw [List.cons_append, lookup_cons_ne _ _ _ _ (by simp [hss']), List.cons_append,
          lookup_cons_ne _ _ _ _ (by simp), List.nil_append, ih1]
      · rw [List.cons_append, lookup_cons_ne _ _ _ _ (by simp), List.cons_append,
          lookup_cons_ne _ _ _ _ (by simp [hss']), List.nil_append, ih2]

/-- C6 (amended). For a registry built from a map of entries and an entry `n`
of it: `Init n` yields a pointer to a struct, `Lookup` of that pointer and
`Lookup` of a value of the pointee struct type return one and the same name
`m`, which is the name of an entry whose factory produces the same type; and
`m` is `n` itself when no other entry's factory produces that type. -/
theorem C6_lookup_inverts_init (p : CodecPkg) (typeDecs : List (String × TypeDec))
    (r : Registry) (n : String) (t : TypeDec)
    (hkeys : (typeDecs.map Prod.fst).Nodup)
    (hnew : NewRegistry p typeDecs = .ok r)
    (hmem : (n, t) ∈ typeDecs) :
    ∃ v s m, r.Init n = .ok (some v) ∧ v.rtype = .ptr (.struct s) ∧
      r.Lookup (some v) = .ok m ∧
      (∀ st, r.Lookup (some ⟨.struct s, st⟩) = .ok m) ∧
      (∃ t', (m, t') ∈ typeDecs ∧ t'.rtype = t.rtype) ∧
      ((∀ nt ∈ typeDecs, nt.2.rtype = t.rtype → nt.1 = n) → m = n) := by
  obtain ⟨hpass, _, htypes, hrtypes⟩ := loop_ok typeDecs _ r hnew
  simp only [List.append_nil] at htypes hrtypes
  obtain ⟨_, _, init, hi, v, hv, ⟨s, hs⟩, _⟩ := hpass (n, t) hmem
  change t.Init = some init at hi
  have htr : t.rtype = some (.ptr (.struct s)) := by simp [TypeDec.rtype, hi, hv, hs]
  have hall : ∀ nt ∈ typeDecs.reverse, ∃ s', nt.2.rtype = some (.ptr (.struct s')) := by
    intro nt hnt
    obtain ⟨_, _, init', hi', v', hv', ⟨s', hs'⟩, _⟩ := hpass nt (List.mem_reverse.1 hnt)
    exact ⟨s', by simp [TypeDec.rtype, hi', hv', hs']⟩
  obtain ⟨hl1, hl2⟩ := lookup_entryKeys s typeDecs.reverse hall
  have hlook : r.types.lookup n = some t := by
    rw [htypes]
    apply lookup_of_mem_nodup
    · rw [List.map_reverse]
      exact List.nodup_reverse.2 hkeys
    · exact List.mem_reverse.2 hmem
  cases hf : typeDecs.reverse.find? (fun nt => decide (nt.2.rtype = some (.ptr (.struct s)))) with
  | none =>
    rw [List.find?_eq_none] at hf
    have := hf (n, t) (List.mem_reverse.2 hmem)
    simp [htr] at this
  | some nt' =>
    have hpred : nt'.2.rtype = some (.ptr (.struct s)) := by
      have := List.find?_some hf
      simpa using this
    have hmem' : nt' ∈ typeDecs := List.mem_reverse.1 (List.mem_of_find?_eq_some hf)
    rw [hf] at hl1 hl2
    refine ⟨v, s, nt'.1, ?_, hs, ?_, ?_, ⟨nt'.2, hmem', ?_⟩, ?_⟩
    · simp only [Registry.Init, hlook, hi, hv]
    · simp only [Registry.Lookup, hs, hrtypes, hl2, Option.map_some']
    · intro st
      simp only [Registry.Lookup, hrtypes, hl1, Option.map_some']
    · rw [hpred, htr]
    · intro huniq
      exact huniq nt' hmem' (by rw [hpred, htr])

/-- The registry of the test suite: `Init` of the one name yields a pointer
that `Lookup` maps back to that name, and so does its pointee type. -/
theorem C6_lookup_inverts_init_witness :
    ∃ v s m, Registry.Init ⟨[(.struct "TestEventCreated", "test-event-created"),
          (.ptr (.struct "TestEventCreated"), "test-event-created")], demoDecs, demoJSON⟩
          "test-event-created" = .ok (some v) ∧
      v.rtype = .ptr (.struct s) ∧
      Registry.Lookup ⟨[(.struct "TestEventCreated", "test-event-created"),
          (.ptr (.struct "TestEventCreated"), "test-event-created")], demoDecs, demoJSON⟩
          (some v) = .ok m ∧
      (∀ st, Registry.Lookup ⟨[(.struct "TestEventCreated", "test-event-created"),
          (.ptr (.struct "TestEventCreated"), "test-event-created")], demoDecs, demoJSON⟩
          (some ⟨.struct s, st⟩) = .ok m) ∧
      (∃ t', (m, t') ∈ demoDecs ∧ t'.rtype = (demoType "TestEventCreated").rtype) ∧
      ((∀ nt ∈ demoDecs, nt.2.rtype = (demoType "TestEventCreated").rtype →
          nt.1 = "test-event-created") → m = "test-event-created") :=
  C6_lookup_inverts_init demoPkg demoDecs _ "test-event-created" (demoType "TestEventCreated")
    (by decide) rfl (by simp [demoDecs])

/-- C6 (as stated) fails when two names share a struct type: whichever entry
the map iteration visits last owns the type, so for the other name `Lookup` does
not invert `Init`. -/
theorem C6_counterexample :
    (∃ r v, NewRegistry demoPkg sharedDecs = .ok r ∧ r.Init "a" = .ok (some v) ∧
        r.Lookup (some v) = .ok "b") ∧
    (∃ r v, NewRegistry demoPkg sharedDecs.reverse = .ok r ∧ r.Init "b" = .ok (some v) ∧
        r.Lookup (some v) = .ok "a") :=
  ⟨⟨_, _, rfl, rfl, rfl⟩, ⟨_, _, rfl, rfl, rfl⟩⟩

/-! ## wrapEvent -/

theorem wrapEvent_ok (L : Lib) (c : Ceen) (event e : Event) (n n' : Nat)
    (h : wrapEvent L c event n = .ok (e, n')) :
    ∃ d, event.Data = some d ∧ e.Data = some d ∧ e.Subject = event.Subject ∧
      e.Sequence = event.Sequence ∧
      e.ID = (if event.ID = "" then c.id.New n else event.ID) ∧
      n' = (if event.ID = "" then n + 1 else n) ∧
      (c.types = none → event.Typ ≠ "" ∧ e.Typ = event.Typ) ∧
      (∀ r, c.types = some r →
        r.Lookup (some d) = .ok e.Typ ∧ (event.Typ = "" ∨ event.Typ = e.Typ)) := by
  unfold wrapEvent at h
  cases hd : event.Data with
  | none => simp [hd] at h
  | some d =>
    simp only [hd] at h
    refine ⟨d, rfl, ?_⟩
    split at h
    · cases h
    · rename_i ev htyped
      split at h
      · cases h
      · have hfin : e = (if ev.ID = "" then { ev with ID := c.id.New n } else ev) ∧
            n' = (if ev.ID = "" then n + 1 else n) := by
          by_cases hid : ev.ID = ""
          · rw [if_pos hid] at h
            cases h
            simp [hid]
          · rw [if_neg hid] at h
            cases h
            simp [hid]
        have hev : ev.ID = event.ID ∧ ev.Data = some d ∧ ev.Subject = event.Subject ∧
            ev.Sequence = event.Sequence ∧
            (c.types = none → event.Typ ≠ "" ∧ ev.Typ = event.Typ) ∧
            (∀ r, c.types = some r →
              r.Lookup (some d) = .ok ev.Typ ∧ (event.Typ = "" ∨ event.Typ = ev.Typ)) := by
          cases hc : c.types with
          | none =>
            simp only [hc] at htyped
            by_cases ht : event.Typ = ""
            · simp [ht] at htyped
            · rw [if_neg ht] at htyped
              cases htyped
              simp [hd, ht]
          | some r =>
            simp only [hc] at htyped
            cases hl : r.Lookup (some d) with
            | error err => simp [hl] at htyped
            | ok t =>
              simp only [hl] at htyped
              by_cases ht : event.Typ = ""
              · rw [if_pos ht] at htyped
                cases htyped
                simp [hd, ht, hl]
              · by_cases ht2 : event.Typ = t
                · rw [if_neg ht, if_neg (not_not.2 ht2)] at htyped
                  cases htyped
                  simp [hd, hl, ht2]
                · rw [if_neg ht, if_pos ht2] at htyped
                  cases htyped
        obtain ⟨h1, h2, h3, h4, h5, h6⟩ := hev
        obtain ⟨he, hn⟩ := hfin
        rw [h1] at he hn
        subst he
        refine ⟨?_, ?_, ?_, ?_, hn, ?_, ?_⟩
        · by_cases hid : event.ID = "" <;> simp [hid, h2]
        · by_cases hid : event.ID = "" <;> simp [hid, h3]
        · by_cases hid : event.ID = "" <;> simp [hid, h4]
        · by_cases hid : event.ID = "" <;> simp [hid, h1]
        · intro hc
          by_cases hid : event.ID = "" <;> simpa [hid] using h5 hc
        · intro r hc
          by_cases hid : event.ID = "" <;> simpa [hid] using h6 r hc

/-- C8. When `wrapEvent` succeeds, a non-empty supplied ID is kept and the
generator is not called; an empty one is replaced by the value the generator
produces, in exactly one call; so the ID is non-empty afterwards, the generated
value being a non-empty string. -/
theorem C8_wrap_assigns_id (L : Lib) (c : Ceen) (event e : Event) (n n' : Nat)
    (h : wrapEvent L c event n = .ok (e, n')) :
    (event.ID ≠ "" → e.ID = event.ID ∧ n' = n) ∧
    (event.ID = "" → e.ID = c.id.New n ∧ n' = n + 1) ∧
    (c.id.New n ≠ "" → e.ID ≠ "") := by
  obtain ⟨d, _, _, _, _, hid, hn, _⟩ := wrapEvent_ok L c event e n n' h
  by_cases he : event.ID = ""
  · rw [if_pos he] at hid hn
    exact ⟨fun hne => absurd he hne, fun _ => ⟨hid, hn⟩, fun hgen => hid ▸ hgen⟩
  · rw [if_neg he] at hid hn
    exact ⟨fun _ => ⟨hid, hn⟩, fun hempty => absurd hempty he, fun _ => hid ▸ he⟩

/-- The event of the test suite, wrapped by a client with the registry: it
gets the generated ID, in the generator's first call. -/
theorem C8_wrap_assigns_id_witness :
    (createdEvent.ID ≠ "" → wrappedEvent.ID = createdEvent.ID ∧ 1 = 0) ∧
    (createdEvent.ID = "" → wrappedEvent.ID = typedCeen.id.New 0 ∧ 1 = 0 + 1) ∧
    (typedCeen.id.New 0 ≠ "" → wrappedEvent.ID ≠ "") :=
  C8_wrap_assigns_id demoLib typedCeen createdEvent wrappedEvent 0 1 rfl

theorem wrapEvent_mismatch (L : Lib) (c : Ceen) (r : Registry) (event : Event) (d : Value)
    (t : String) (n : Nat)
    (hreg : c.types = some r) (hd : event.Data = some d) (hl : r.Lookup (some d) = .ok t)
    (hset : event.Typ ≠ "") (hne : event.Typ ≠ t) :
    wrapEvent L c event n = .error (.wrongType d) := by
  unfold wrapEvent
  simp only [hd, hreg, hl, if_neg hset, if_pos hne]

/-! ## Append -/

theorem loop_nilDeref_iff {σ : Type} (L : Lib) (J : JetStream σ) (es : EventStore)
    (subject : String)
    (hack : ∀ s msg stream s', J.PublishMsg s msg stream ≠ (.ok none, s')) :
    ∀ (events : List (Option Event)) (ack : Option PubAck) (st : AppendState σ),
      (Append.loop L J es subject events ack st).1 = .nilDeref ↔ events = [] ∧ ack = none := by
  intro events
  induction events with
  | nil =>
    intro ack st
    cases ack <;> simp [Append.loop]
  | cons event rest ih =>
    intro ack st
    cases event with
    | none => simp [Append.loop]
    | some event =>
      simp only [Append.loop]
      cases hw : wrapEvent L es.c event st.idCalls with
      | error err => simp
      | ok en =>
        obtain ⟨e, n⟩ := en
        cases hp : packEvent L es.c subject e with
        | error err => simp [hp]
        | ok msg =>
          cases hpub : J.PublishMsg st.js msg es.name with
          | mk res js' =>
            cases res with
            | error err =>
              by_cases hc : stringsContains err "wrong last sequence" = true <;>
                simp [hp, hpub, hc]
            | ok ack' =>
              cases ack' with
              | none => exact absurd hpub (hack _ _ _ _)
              | some a => simp [hp, hpub, ih]

theorem loop_nilEvent_mem {σ : Type} (L : Lib) (J : JetStream σ) (es : EventStore)
    (subject : String) :
    ∀ (events : List (Option Event)) (ack : Option PubAck) (st : AppendState σ),
      (Append.loop L J es subject events ack st).1 = .nilEvent → none ∈ events := by
  intro events
  induction events with
  | nil =>
    intro ack st h
    cases ack <;> simp [Append.loop] at h
  | cons event rest ih =>
    intro ack st h
    cases event with
    | none => exact List.mem_cons_self _ _
    | some event =>
      refine List.mem_cons_of_mem _ ?_
      simp only [Append.loop] at h
      cases hw : wrapEvent L es.c event st.idCalls with
      | error err => simp [hw] at h
      | ok en =>
        obtain ⟨e, n⟩ := en
        cases hp : packEvent L es.c subject e with
        | error err => simp [hw, hp] at h
        | ok msg =>
          cases hpub : J.PublishMsg st.js msg es.name with
          | mk res js' =>
            cases res with
            | error err =>
              by_cases hc : stringsContains err "wrong last sequence" = true <;>
                simp [hw, hp, hpub, hc] at h
            | ok ack' =>
              simp only [hw, hp, hpub] at h
              exact ih _ _ h

/-- C10 (amended). If a successful publish always carries an acknowledgment,
the final read `ack.Sequence` of `Append` meets a nil acknowledgment exactly
when the batch is empty, and the empty batch ends in that nil dereference with
nothing published.  A non-empty batch whose events are all non-nil pointers ends
in an error or in a sequence number; a non-empty batch in general ends in an
error, in a sequence number, or in the panic of `wrapEvent` on a nil event. -/
theorem C10_nil_ack_iff_empty_batch {σ : Type} (L : Lib) (J : JetStream σ) (es : EventStore)
    (subject : String) (events : List (Option Event)) (st : AppendState σ)
    (hack : ∀ s msg stream s', J.PublishMsg s msg stream ≠ (.ok none, s')) :
    ((Append L J es subject events st).1 = .nilDeref ↔ events = []) ∧
    (events ≠ [] → (∀ ev ∈ events, ev ≠ none) →
      (∃ e, (Append L J es subject events st).1 = .error e) ∨
        ∃ seq, (Append L J es subject events st).1 = .ok seq) ∧
    (events ≠ [] →
      (∃ e, (Append L J es subject events st).1 = .error e) ∨
        (∃ seq, (Append L J es subject events st).1 = .ok seq) ∨
        (Append L J es subject events st).1 = .nilEvent) ∧
    (events = [] → Append L J es subject events st = (.nilDeref, st)) := by
  have hiff : (Append L J es subject events st).1 = .nilDeref ↔ events = [] := by
    unfold Append
    rw [loop_nilDeref_iff L J es subject hack]
    simp
  refine ⟨hiff, ?_, ?_, ?_⟩
  · intro hne hall
    cases hres : (Append L J es subject events st).1 with
    | ok seq => exact Or.inr ⟨seq, rfl⟩
    | error e => exact Or.inl ⟨e, rfl⟩
    | nilDeref => exact absurd (hiff.1 hres) hne
    | nilEvent =>
      exact absurd rfl (hall none (loop_nilEvent_mem L J es subject events none st hres))
  · intro hne
    cases hres : (Append L J es subject events st).1 with
    | ok seq => exact Or.inr (Or.inl ⟨seq, rfl⟩)
    | error e => exact Or.inl ⟨e, rfl⟩
    | nilDeref => exact absurd (hiff.1 hres) hne
    | nilEvent => exact Or.inr (Or.inr rfl)
  · intro hnil
    subst hnil
    rfl

/-- On the storing stream, which always acknowledges: the empty batch ends in
the nil dereference of the acknowledgment with the state untouched, and the
batch of the test event does not, it ends in a sequence number or an error. -/
theorem C10_nil_ack_iff_empty_batch_witness :
    Append demoLib demoJS typedStore "testevents.0" [] ⟨0, 0, []⟩ = (.nilDeref, ⟨0, 0, []⟩) ∧
    ((Append demoLib demoJS typedStore "testevents.0" [] ⟨0, 0, []⟩).1 = .nilDeref ↔
      ([] : List (Option Event)) = []) ∧
    ((∃ e, (Append demoLib demoJS typedStore "testevents.0" [some createdEvent]
        ⟨0, 0, []⟩).1 = .error e) ∨
      ∃ seq, (Append demoLib demoJS typedStore "testevents.0" [some createdEvent]
        ⟨0, 0, []⟩).1 = .ok seq) :=
  ⟨(C10_nil_ack_iff_empty_batch demoLib demoJS typedStore "testevents.0" [] ⟨0, 0, []⟩
      (fun _ _ _ _ h => by simp [demoJS] at h)).2.2.2 rfl,
    (C10_nil_ack_iff_empty_batch demoLib demoJS typedStore "testevents.0" [] ⟨0, 0, []⟩
      (fun _ _ _ _ h => by simp [demoJS] at h)).1,
    (C10_nil_ack_iff_empty_batch demoLib demoJS typedStore "testevents.0" [some createdEvent]
      ⟨0, 0, []⟩ (fun _ _ _ _ h => by simp [demoJS] at h)).2.1 (by simp) (by simp)⟩

/-- C10 (as stated) fails for a non-empty batch that holds a nil event
pointer: on a stream that always acknowledges, `Append` of the batch of one nil
event ends in the panic of `wrapEvent`, neither in an error nor in a sequence
number. -/
theorem C10_counterexample :
    (∀ s msg stream s', demoJS.PublishMsg s msg stream ≠ (.ok none, s')) ∧
    ([none] : List (Option Event)) ≠ [] ∧
    (Append demoLib demoJS typedStore "testevents.0" [none] ⟨0, 0, []⟩).1 = .nilEvent ∧
    ¬ ((∃ e, (Append demoLib demoJS typedStore "testevents.0" [none] ⟨0, 0, []⟩).1 = .error e) ∨
      ∃ seq, (Append demoLib demoJS typedStore "testevents.0" [none] ⟨0, 0, []⟩).1 = .ok seq) := by
  refine ⟨fun _ _ _ _ h => by simp [demoJS] at h, by simp, rfl, ?_⟩
  rintro (⟨e, he⟩ | ⟨seq, hs⟩)
  · simp [Append, Append.loop] at he
  · simp [Append, Append.loop] at hs

theorem loop_of_allSucceed {σ : Type} (L : Lib) (J : JetStream σ) (es : EventStore)
    (subject : String) (events : List (Option Event)) (st st' : AppendState σ)
    (tr : List (Msg × PubAck)) (h : AllSucceed L J es subject events st tr st') :
    ∀ ack, Append.loop L J es subject events ack st =
      (match (tr.map fun x => some x.2).getLastD ack with
        | none => .nilDeref
        | some a => .ok a.Sequence,
       st') := by
  induction h with
  | nil st => intro ack; rfl
  | cons hwrap hpack hpub _ ih =>
    intro ack
    simp only [Append.loop, hwrap, hpack, hpub, ih, List.map_cons, List.getLastD_cons]

theorem allSucceed_trace {σ : Type} (L : Lib) (J : JetStream σ) (es : EventStore)
    (subject : String) (events : List (Option Event)) (st st' : AppendState σ)
    (tr : List (Msg × PubAck)) (h : AllSucceed L J es subject events st tr st') :
    st'.publishCalls = st.publishCalls ++ tr.map Prod.fst ∧
    List.Forall₂ (fun event x => PublishedFor L es.c subject event x.1) events tr := by
  induction h with
  | nil st => simp
  | cons hwrap hpack hpub _ ih =>
    refine ⟨?_, List.Forall₂.cons ⟨_, _, _, _, rfl, hwrap, hpack⟩ ih.2⟩
    rw [ih.1]
    simp

/-- C5 (amended). When the batch is not empty and every event of it wraps,
packs and publishes successfully, `Append` hands exactly one message per event
to `PublishMsg`, in argument order, each the packed form of the wrapped event,
and returns the sequence number of the acknowledgment of the last event, with
no error. -/
theorem C5_append_returns_last_ack {σ : Type} (L : Lib) (J : JetStream σ) (es : EventStore)
    (subject : String) (events : List (Option Event)) (st st' : AppendState σ)
    (tr : List (Msg × PubAck))
    (hne : events ≠ [])
    (h : AllSucceed L J es subject events st tr st') :
    (Append L J es subject events st).2 = st' ∧
    (Append L J es subject events st).2.publishCalls = st.publishCalls ++ tr.map Prod.fst ∧
    List.Forall₂ (fun event x => PublishedFor L es.c subject event x.1) events tr ∧
    ∃ a, (tr.map Prod.snd).getLast? = some a ∧
      (Append L J es subject events st).1 = .ok a.Sequence := by
  have hloop := loop_of_allSucceed L J es subject events st st' tr h none
  have htr := allSucceed_trace L J es subject events st st' tr h
  have h2 : (Append L J es subject events st).2 = st' := by
    unfold Append
    rw [hloop]
  refine ⟨h2, h2 ▸ htr.1, htr.2, ?_⟩
  have hlen : events.length = tr.length := htr.2.length_eq
  have htrne : tr.map Prod.snd ≠ [] := by
    intro hnil
    have h0 : tr.length = 0 := by simpa using congrArg List.length hnil
    exact hne (List.length_eq_zero.1 (hlen.trans h0))
  cases ha : (tr.map Prod.snd).getLast? with
  | none => exact absurd (List.getLast?_eq_none_iff.1 ha) htrne
  | some a =>
    refine ⟨a, rfl, ?_⟩
    have hlast : (tr.map fun x => some x.2).getLastD none = some a := by
      have hmap : (tr.map fun x => some x.2) = (tr.map Prod.snd).map some := by simp
      rw [hmap, List.getLastD_eq_getLast?, List.getLast?_map, ha]
      rfl
    unfold Append
    rw [hloop, hlast]

/-- Two copies of the test event appended to the storing stream: two messages
are published in order and the second acknowledgment's sequence, 2, is
returned. -/
theorem C5_append_returns_last_ack_witness :
    (Append demoLib demoJS typedStore "testevents.0" [some createdEvent, some createdEvent]
      ⟨0, 0, []⟩).2 = ⟨2, 2, [createdMsg, createdMsg]⟩ ∧
    (Append demoLib demoJS typedStore "testevents.0" [some createdEvent, some createdEvent]
      ⟨0, 0, []⟩).2.publishCalls
      = [] ++ [(createdMsg, (⟨"testevents", 1⟩ : PubAck)),
          (createdMsg, (⟨"testevents", 2⟩ : PubAck))].map Prod.fst ∧
    List.Forall₂ (fun event x => PublishedFor demoLib typedStore.c "testevents.0" event x.1)
      [some createdEvent, some createdEvent]
      [(createdMsg, (⟨"testevents", 1⟩ : PubAck)), (createdMsg, (⟨"testevents", 2⟩ : PubAck))] ∧
    ∃ a, ([(createdMsg, (⟨"testevents", 1⟩ : PubAck)),
          (createdMsg, (⟨"testevents", 2⟩ : PubAck))].map Prod.snd).getLast? = some a ∧
      (Append demoLib demoJS typedStore "testevents.0" [some createdEvent, some createdEvent]
        ⟨0, 0, []⟩).1 = .ok a.Sequence :=
  C5_append_returns_last_ack demoLib demoJS typedStore "testevents.0"
    [some createdEvent, some createdEvent] ⟨0, 0, []⟩ ⟨2, 2, [createdMsg, createdMsg]⟩
    [(createdMsg, ⟨"testevents", 1⟩), (createdMsg, ⟨"testevents", 2⟩)] (by simp)
    (AllSucceed.cons (e := wrappedEvent) (n := 1) (j := 1) rfl rfl rfl
      (AllSucceed.cons (e := wrappedEvent) (n := 2) (j := 2) rfl rfl rfl (AllSucceed.nil _)))

/-- C5 (as stated) fails for the empty batch: every event of it wraps, packs
and publishes successfully, there being none, yet `Append` returns no sequence
number: it ends in the nil dereference of the acknowledgment. -/
theorem C5_counterexample :
    AllSucceed demoLib demoJS typedStore "testevents.0" [] ⟨0, 0, []⟩ [] ⟨0, 0, []⟩ ∧
    (Append demoLib demoJS typedStore "testevents.0" [] ⟨0, 0, []⟩).1 = .nilDeref ∧
    ¬ ∃ seq, (Append demoLib demoJS typedStore "testevents.0" [] ⟨0, 0, []⟩).1 = .ok seq := by
  refine ⟨AllSucceed.nil _, rfl, ?_⟩
  rintro ⟨seq, hs⟩
  simp [Append, Append.loop] at hs

theorem loop_mismatch_calls {σ : Type} (L : Lib) (J : JetStream σ) (es : EventStore)
    (subject : String) (bad : Event) (post : List (Option Event)) (r : Registry) (d : Value)
    (t : String)
    (hreg : es.c.types = some r) (hd : bad.Data = some d) (hl : r.Lookup (some d) = .ok t)
    (hset : bad.Typ ≠ "") (hne : bad.Typ ≠ t) :
    ∀ (pre : List (Option Event)) (ack : Option PubAck) (st : AppendState σ),
      ((∃ e, (Append.loop L J es subject (pre ++ some bad :: post) ack st).1 = .error e) ∨
        (Append.loop L J es subject (pre ++ some bad :: post) ack st).1 = .nilEvent) ∧
      ((∀ ev ∈ pre, ev ≠ none) →
        ∃ e, (Append.loop L J es subject (pre ++ some bad :: post) ack st).1 = .error e) ∧
      ∃ calls, (Append.loop L J es subject (pre ++ some bad :: post) ack st).2.publishCalls
          = st.publishCalls ++ calls ∧ calls.length ≤ pre.length ∧
        List.Forall₂ (PublishedFor L es.c subject) (pre.take calls.length) calls := by
  intro pre
  induction pre with
  | nil =>
    intro ack st
    have hw := wrapEvent_mismatch L es.c r bad d t st.idCalls hreg hd hl hset hne
    simp only [List.nil_append, Append.loop, hw]
    exact ⟨Or.inl ⟨_, rfl⟩, fun _ => ⟨_, rfl⟩, [], by simp, by simp, by simp⟩
  | cons event rest ih =>
    intro ack st
    cases event with
    | none =>
      exact ⟨Or.inr rfl, fun h => absurd rfl (h none (List.mem_cons_self _ _)), [], by
        simp [Append.loop], by simp, by simp⟩
    | some event =>
      simp only [List.cons_append, Append.loop]
      cases hw : wrapEvent L es.c event st.idCalls with
      | error err =>
        exact ⟨Or.inl ⟨err, rfl⟩, fun _ => ⟨err, rfl⟩, [], by simp, by simp, by simp⟩
      | ok en =>
        obtain ⟨e, n⟩ := en
        cases hp : packEvent L es.c subject e with
        | error err =>
          simp only [hp]
          exact ⟨Or.inl ⟨err, rfl⟩, fun _ => ⟨err, rfl⟩, [], by simp, by simp, by simp⟩
        | ok msg =>
          have hfor : PublishedFor L es.c subject (some event) msg :=
            ⟨event, _, e, n, rfl, hw, hp⟩
          cases hpub : J.PublishMsg st.js msg es.name with
          | mk res js' =>
            cases res with
            | error err =>
              simp only [hp, hpub]
              have herr : ∃ e', (if stringsContains err "wrong last sequence" = true then
                  (Outcome.error Err.wrongLastSequence : Outcome Nat)
                  else Outcome.error (Err.transport err)) = .error e' := by
                by_cases hc : stringsContains err "wrong last sequence" = true
                · exact ⟨.wrongLastSequence, by simp only [hc, if_true]⟩
                · exact ⟨.transport err, by simp [hc]⟩
              refine ⟨Or.inl herr, fun _ => herr, [msg], by simp, by simp, ?_⟩
              simpa using hfor
            | ok ack' =>
              simp only [hp, hpub]
              obtain ⟨h1, h2, calls, hcalls, hlen, hfa⟩ :=
                ih ack' { js := js', idCalls := n, publishCalls := st.publishCalls ++ [msg] }
              refine ⟨h1, fun hall => h2 (fun ev hev => hall ev (List.mem_cons_of_mem _ hev)),
                msg :: calls, hcalls.trans (by simp), by simp [hlen], ?_⟩
              rw [List.length_cons, List.take_succ_cons]
              exact List.Forall₂.cons hfor hfa

theorem loop_mismatch_post {σ : Type} (L : Lib) (J : JetStream σ) (es : EventStore)
    (subject : String) (bad : Event) (post post' : List (Option Event)) (r : Registry)
    (d : Value) (t : String)
    (hreg : es.c.types = some r) (hd : bad.Data = some d) (hl : r.Lookup (some d) = .ok t)
    (hset : bad.Typ ≠ "") (hne : bad.Typ ≠ t) :
    ∀ (pre : List (Option Event)) (ack : Option PubAck) (st : AppendState σ),
      Append.loop L J es subject (pre ++ some bad :: post) ack st
        = Append.loop L J es subject (pre ++ some bad :: post') ack st := by
  intro pre
  induction pre with
  | nil =>
    intro ack st
    have hw := wrapEvent_mismatch L es.c r bad d t st.idCalls hreg hd hl hset hne
    simp only [List.nil_append, Append.loop, hw]
  | cons event rest ih =>
    intro ack st
    cases event with
    | none => simp only [List.cons_append, Append.loop]
    | some event =>
      simp only [List.cons_append, Append.loop]
      cases hw : wrapEvent L es.c event st.idCalls with
      | error err => rfl
      | ok en =>
        obtain ⟨e, n⟩ := en
        cases hp : packEvent L es.c subject e with
        | error err => simp only [hp]
        | ok msg =>
          cases hpub : J.PublishMsg st.js msg es.name with
          | mk res js' =>
            cases res with
            | error err => simp only [hp, hpub]
            | ok ack' =>
              simp only [hp, hpub]
              exact ih _ _

theorem loop_mismatch_after {σ : Type} (L : Lib) (J : JetStream σ) (es : EventStore)
    (subject : String) (bad : Event) (post : List (Option Event)) (r : Registry) (d : Value)
    (t : String)
    (hreg : es.c.types = some r) (hd : bad.Data = some d) (hl : r.Lookup (some d) = .ok t)
    (hset : bad.Typ ≠ "") (hne : bad.Typ ≠ t)
    (pre : List (Option Event)) (st st' : AppendState σ) (tr : List (Msg × PubAck))
    (h : AllSucceed L J es subject pre st tr st') :
    ∀ ack, Append.loop L J es subject (pre ++ some bad :: post) ack st
      = (.error (.wrongType d), st') := by
  induction h with
  | nil st =>
    intro ack
    have hw := wrapEvent_mismatch L es.c r bad d t st.idCalls hreg hd hl hset hne
    simp only [List.nil_append, Append.loop, hw]
  | cons hwrap hpack hpub _ ih =>
    intro ack
    simp only [List.cons_append, Append.loop, hwrap, hpack, hpub]
    exact ih _

/-- C1 (amended). On a store with a type registry, a batch that contains an
event whose Type is set to a name other than the one registered for its
Data's runtime type never makes `Append` return a sequence number: it returns
an error, or panics on a nil event pointer that stands before that event, and
it returns an error whenever no event before it is nil.  Every `PublishMsg` call
it makes is for an event that stands before the mistyped one, one call per
event from the first on in batch order, so none is made for the mistyped event
or for any event after it, and the events after it have no influence at all.
When all the events before it wrap, pack and publish successfully (so also when
it is the first), the error is the wrong-type validation error and exactly
those earlier events have been published. -/
theorem C1_mismatch_fails_append {σ : Type} (L : Lib) (J : JetStream σ) (es : EventStore)
    (subject : String) (pre : List (Option Event)) (bad : Event) (post : List (Option Event))
    (st : AppendState σ) (r : Registry) (d : Value) (t : String)
    (hreg : es.c.types = some r) (hd : bad.Data = some d) (hl : r.Lookup (some d) = .ok t)
    (hset : bad.Typ ≠ "") (hne : bad.Typ ≠ t) :
    ((∃ e, (Append L J es subject (pre ++ some bad :: post) st).1 = .error e) ∨
      (Append L J es subject (pre ++ some bad :: post) st).1 = .nilEvent) ∧
    ((∀ ev ∈ pre, ev ≠ none) →
      ∃ e, (Append L J es subject (pre ++ some bad :: post) st).1 = .error e) ∧
    (∃ calls, (Append L J es subject (pre ++ some bad :: post) st).2.publishCalls
        = st.publishCalls ++ calls ∧ calls.length ≤ pre.length ∧
        List.Forall₂ (PublishedFor L es.c subject) (pre.take calls.length) calls) ∧
    (∀ post', Append L J es subject (pre ++ some bad :: post') st
        = Append L J es subject (pre ++ some bad :: post) st) ∧
    (∀ tr st', AllSucceed L J es subject pre st tr st' →
      Append L J es subject (pre ++ some bad :: post) st = (.error (.wrongType d), st')) ∧
    (pre = [] →
      Append L J es subject (pre ++ some bad :: post) st = (.error (.wrongType d), st)) := by
  have hb := loop_mismatch_calls L J es subject bad post r d t hreg hd hl hset hne pre none st
  refine ⟨hb.1, hb.2.1, hb.2.2, ?_, ?_, ?_⟩
  · intro post'
    exact loop_mismatch_post L J es subject bad post' post r d t hreg hd hl hset hne pre none st
  · intro tr st' h
    exact loop_mismatch_after L J es subject bad post r d t hreg hd hl hset hne pre st st' tr h none
  · intro hpre
    subst hpre
    exact loop_mismatch_after L J es subject bad post r d t hreg hd hl hset hne [] st st []
      (AllSucceed.nil st) none

/-- The test event, then the mistyped event, then the test event again, on the
storing stream: `Append` returns the wrong-type error, the one message it has
published is that of the first event, and the third event plays no part. -/
theorem C1_mismatch_fails_append_witness :
    Append demoLib demoJS typedStore "testevents.0"
        ([some createdEvent] ++ some mistypedEvent :: [some createdEvent]) ⟨0, 0, []⟩
      = (.error (.wrongType ⟨.ptr (.struct "TestEventCreated"), [1, 2, 3]⟩),
          ⟨1, 1, [createdMsg]⟩) ∧
    (∃ e, (Append demoLib demoJS typedStore "testevents.0"
        ([some createdEvent] ++ some mistypedEvent :: [some createdEvent]) ⟨0, 0, []⟩).1
        = .error e) ∧
    (∃ calls, (Append demoLib demoJS typedStore "testevents.0"
        ([some createdEvent] ++ some mistypedEvent :: [some createdEvent])
        ⟨0, 0, []⟩).2.publishCalls = (⟨0, 0, []⟩ : AppendState Nat).publishCalls ++ calls ∧
        calls.length ≤ [some createdEvent].length ∧
        List.Forall₂ (PublishedFor demoLib typedStore.c "testevents.0")
          ([some createdEvent].take calls.length) calls) ∧
    Append demoLib demoJS typedStore "testevents.0"
        ([some createdEvent] ++ some mistypedEvent :: []) ⟨0, 0, []⟩
      = Append demoLib demoJS typedStore "testevents.0"
        ([some createdEvent] ++ some mistypedEvent :: [some createdEvent]) ⟨0, 0, []⟩ :=
  ⟨(C1_mismatch_fails_append demoLib demoJS typedStore "testevents.0" [some createdEvent]
      mistypedEvent [some createdEvent] ⟨0, 0, []⟩ demoRegistry
      ⟨.ptr (.struct "TestEventCreated"), [1, 2, 3]⟩ "test-event-created" rfl rfl rfl
      (by decide) (by decide)).2.2.2.2.1 [(createdMsg, ⟨"testevents", 1⟩)] ⟨1, 1, [createdMsg]⟩
      (AllSucceed.cons (e := wrappedEvent) (n := 1) (j := 1) rfl rfl rfl (AllSucceed.nil _)),
    (C1_mismatch_fails_append demoLib demoJS typedStore "testevents.0" [some createdEvent]
      mistypedEvent [some createdEvent] ⟨0, 0, []⟩ demoRegistry
      ⟨.ptr (.struct "TestEventCreated"), [1, 2, 3]⟩ "test-event-created" rfl rfl rfl
      (by decide) (by decide)).2.1 (by simp),
    (C1_mismatch_fails_append demoLib demoJS typedStore "testevents.0" [some createdEvent]
      mistypedEvent [some createdEvent] ⟨0, 0, []⟩ demoRegistry
      ⟨.ptr (.struct "TestEventCreated"), [1, 2, 3]⟩ "test-event-created" rfl rfl rfl
      (by decide) (by decide)).2.2.1,
    (C1_mismatch_fails_append demoLib demoJS typedStore "testevents.0" [some createdEvent]
      mistypedEvent [some createdEvent] ⟨0, 0, []⟩ demoRegistry
      ⟨.ptr (.struct "TestEventCreated"), [1, 2, 3]⟩ "test-event-created" rfl rfl rfl
      (by decide) (by decide)).2.2.2.1 []⟩

/-- C1 (as stated) fails when the mistyped event is not the first of the
batch: the event before it has been handed to `PublishMsg` by the time the
wrong-type error is returned. -/
theorem C1_counterexample :
    (Append demoLib demoJS typedStore "testevents.0" [some createdEvent, some mistypedEvent]
      ⟨0, 0, []⟩).1 = .error (.wrongType ⟨.ptr (.struct "TestEventCreated"), [1, 2, 3]⟩) ∧
    (Append demoLib demoJS typedStore "testevents.0" [some createdEvent, some mistypedEvent]
      ⟨0, 0, []⟩).2.publishCalls = [createdMsg] :=
  ⟨rfl, rfl⟩

/-! ## UnpackEvent -/

/-- C9. A message whose codec header names a codec that `codec.Codecs` does not
hold makes `UnpackEvent` fail with the codec-not-registered error for that name,
and none of the later steps (factory call, decoding, metadata) is taken,
whatever the registry, the payload and the other headers are; a message without
the header names the empty string. -/
theorem C9_unknown_codec_fails_first (L : Lib) (c : Ceen) (msg : Msg)
    (h : L.codec.Codecs (msg.Header.Get eventCodecHdr) = none) :
    UnpackEvent L c msg = .error (.codecNotRegistered (msg.Header.Get eventCodecHdr)) ∧
    (UnpackEventT L c msg).2 = [] ∧
    (msg.Header.entries.lookup eventCodecHdr = none → msg.Header.Get eventCodecHdr = "") := by
  refine ⟨?_, ?_, ?_⟩
  · simp only [UnpackEvent, UnpackEventT, h]
  · simp only [UnpackEventT, h]
  · intro hmiss
    simp only [Header.Get, hmiss]

/-- A message that carries a payload and a type header but no codec header,
read by the client with the registry: the lookup of the empty codec name
fails and nothing else happens. -/
theorem C9_unknown_codec_fails_first_witness :
    UnpackEvent demoLib typedCeen ⟨"testevents.0", "", ⟨[("ceen-type", ["test-event-created"])]⟩,
        [1, 2, 3]⟩
      = .error (.codecNotRegistered (Header.Get ⟨[("ceen-type", ["test-event-created"])]⟩
          eventCodecHdr)) ∧
    (UnpackEventT demoLib typedCeen ⟨"testevents.0", "",
        ⟨[("ceen-type", ["test-event-created"])]⟩, [1, 2, 3]⟩).2 = [] ∧
    ((⟨[("ceen-type", ["test-event-created"])]⟩ : Header).entries.lookup eventCodecHdr = none →
      Header.Get ⟨[("ceen-type", ["test-event-created"])]⟩ eventCodecHdr = "") :=
  C9_unknown_codec_fails_first demoLib typedCeen
    ⟨"testevents.0", "", ⟨[("ceen-type", ["test-event-created"])]⟩, [1, 2, 3]⟩ rfl

theorem header_get_codec (a b c : String) :
    Header.Get ⟨[(eventCodecHdr, [a]), (eventTypeHdr, [b]), (MsgIdHdr, [c])]⟩ eventCodecHdr = a := by
  simp [Header.Get]

theorem header_get_type (a b c : String) :
    Header.Get ⟨[(eventCodecHdr, [a]), (eventTypeHdr, [b]), (MsgIdHdr, [c])]⟩ eventTypeHdr = b := by
  have h : (eventTypeHdr == eventCodecHdr) = false := by decide
  simp [Header.Get, List.lookup_cons, h]

theorem header_get_id (a b c : String) :
    Header.Get ⟨[(eventCodecHdr, [a]), (eventTypeHdr, [b]), (MsgIdHdr, [c])]⟩ MsgIdHdr = c := by
  have h1 : (MsgIdHdr == eventCodecHdr) = false := by decide
  have h2 : (MsgIdHdr == eventTypeHdr) = false := by decide
  simp [Header.Get, List.lookup_cons, h1, h2]

theorem packEvent_ok (L : Lib) (c : Ceen) (subject : String) (e : Event) (b : Bytes)
    (henc : (match c.types with
      | none =>
        (match L.codec.Binary.Marshal e.Data with
          | .error err => .error (.codecError err)
          | .ok b => .ok b : Except Err Bytes)
      | some r => r.Marshal e.Data) = .ok b) :
    packEvent L c subject e = .ok
      { Subject := subject
        Reply := ""
        Header := ⟨[(eventCodecHdr, [(selectedCodec L c).Name]), (eventTypeHdr, [e.Typ]),
          (MsgIdHdr, [e.ID])]⟩
        Data := b } := by
  unfold packEvent selectedCodec
  cases hc : c.types with
  | none =>
    simp only [hc] at henc
    simp only [henc, NewMsg, Header.Set]
  | some r =>
    simp only [hc] at henc
    simp only [henc, NewMsg, Header.Set]

theorem unpack_plain_data (L : Lib) (c : Ceen) (msg : Msg) (e : Event)
    (hc : c.types = none) (h : UnpackEvent L c msg = .ok e) :
    ∃ b, e.Data = some ⟨.bytes, b⟩ := by
  unfold UnpackEvent UnpackEventT at h
  cases hcod : L.codec.Codecs (msg.Header.Get eventCodecHdr) with
  | none => simp [hcod] at h
  | some codc =>
    simp only [hcod, hc] at h
    cases hu : codc.Unmarshal msg.Data (some ⟨.ptr .bytes, []⟩) with
    | error err => simp [hu] at h
    | ok b =>
      simp only [hu] at h
      by_cases hr : msg.Reply = ""
      · simp only [hr, ne_eq, not_true_eq_false, if_false, Except.ok.injEq] at h
        exact ⟨b, by rw [← h]⟩
      · cases hm : L.Metadata msg with
        | error err => simp [hr, hm] at h
        | ok sq =>
          simp only [hr, ne_eq, not_false_eq_true, if_true, hm, Except.ok.injEq] at h
          exact ⟨b, by rw [← h]⟩

theorem lookup_entryKeys_shape (rt : RType) (m : String) :
    ∀ l : List (String × TypeDec),
      (∀ nt ∈ l, ∃ s', nt.2.rtype = some (.ptr (.struct s'))) →
      (l.flatMap entryKeys).lookup rt = some m →
      ∃ s, rt = .struct s ∨ rt = .ptr (.struct s) := by
  intro l
  induction l with
  | nil => intro _ h; simp at h
  | cons d rest ih =>
    intro hall h
    obtain ⟨s', hs'⟩ := hall d (List.mem_cons_self _ _)
    have hk : entryKeys d = [(.struct s', d.1), (.ptr (.struct s'), d.1)] := by
      simp [entryKeys, hs']
    by_cases h1 : rt = .struct s'
    · exact ⟨s', Or.inl h1⟩
    · by_cases h2 : rt = .ptr (.struct s')
      · exact ⟨s', Or.inr h2⟩
      · rw [List.flatMap_cons, hk, List.cons_append, lookup_cons_ne _ _ _ _ h1,
          List.cons_append, lookup_cons_ne _ _ _ _ h2, List.nil_append] at h
        exact ih (fun nt hnt => hall nt (List.mem_cons_of_mem _ hnt)) h

theorem registry_lookup_init (p : CodecPkg) (typeDecs : List (String × TypeDec)) (r : Registry)
    (d : Value) (m : String)
    (hkeys : (typeDecs.map Prod.fst).Nodup)
    (hnew : NewRegistry p typeDecs = .ok r)
    (hl : r.Lookup (some d) = .ok m) :
    r.codec = p.Default ∧
    ∃ v, r.Init m = .ok (some v) ∧ v.rtype = .ptr d.rtype.pointee := by
  obtain ⟨hpass, hcodec, htypes, hrtypes⟩ := loop_ok typeDecs _ r hnew
  simp only [List.append_nil] at htypes hrtypes
  refine ⟨hcodec, ?_⟩
  have hall : ∀ nt ∈ typeDecs.reverse, ∃ s', nt.2.rtype = some (.ptr (.struct s')) := by
    intro nt hnt
    obtain ⟨_, _, init', hi', v', hv', ⟨s', hs'⟩, _⟩ := hpass nt (List.mem_reverse.1 hnt)
    exact ⟨s', by simp [TypeDec.rtype, hi', hv', hs']⟩
  have hlk : r.rtypes.lookup d.rtype = some m := by
    unfold Registry.Lookup at hl
    cases hq : r.rtypes.lookup d.rtype with
    | none => simp [hq] at hl
    | some t =>
      simp only [hq, Except.ok.injEq] at hl
      rw [hl]
  rw [hrtypes] at hlk
  obtain ⟨s, hs⟩ := lookup_entryKeys_shape d.rtype m typeDecs.reverse hall hlk
  obtain ⟨hl1, hl2⟩ := lookup_entryKeys s typeDecs.reverse hall
  have hfind : (typeDecs.reverse.find? fun nt =>
      decide (nt.2.rtype = some (.ptr (.struct s)))).map Prod.fst = some m := by
    rcases hs with hs | hs
    · rw [← hl1, ← hs, hlk]
    · rw [← hl2, ← hs, hlk]
  have hpt : d.rtype.pointee = .struct s := by
    rcases hs with hs | hs <;> rw [hs] <;> rfl
  cases hf : typeDecs.reverse.find? (fun nt => decide (nt.2.rtype = some (.ptr (.struct s)))) with
  | none => simp [hf] at hfind
  | some nt' =>
    simp only [hf, Option.map_some', Option.some.injEq] at hfind
    have hpred : nt'.2.rtype = some (.ptr (.struct s)) := by
      have := List.find?_some hf
      simpa using this
    have hmem' : nt' ∈ typeDecs.reverse := List.mem_of_find?_eq_some hf
    have hlook : r.types.lookup m = some nt'.2 := by
      rw [htypes]
      apply lookup_of_mem_nodup
      · rw [List.map_reverse]
        exact List.nodup_reverse.2 hkeys
      · rw [← hfind]
        exact hmem'
    unfold TypeDec.rtype at hpred
    cases hi : nt'.2.Init with
    | none => simp [hi] at hpred
    | some init =>
      simp only [hi] at hpred
      cases hv : init () with
      | none => simp [hv] at hpred
      | some v =>
        simp only [hv, Option.map_some', Option.some.injEq] at hpred
        exact ⟨v, by simp only [Registry.Init, hlook, hi, hv], by rw [hpred, hpt]⟩

/-- C3 (amended). For every subject and every event that `wrapEvent` accepts,
on a client with a type registry built by `NewRegistry`, or on a client without
a registry when the event's data is a byte slice: if the selected codec's
`Unmarshal` inverts its `Marshal` on the data for the target that `UnpackEvent`
decodes into (the instance the registered factory produces, or a fresh byte
slice), and `codec.JSON` and `codec.Binary` bear different names, `packEvent`
succeeds and `UnpackEvent` of the message succeeds with the same ID and Type,
the subject, sequence 0, and as data the byte slice itself, or a pointer to an
instance of the registered struct type that holds the state of the event's
data. -/
theorem C3_pack_unpack_round_trip (L : Lib) (c : Ceen) (typeDecs : List (String × TypeDec))
    (subject : String) (event e : Event) (n n' : Nat) (d : Value)
    (hnames : L.codec.JSON.Name ≠ L.codec.Binary.Name)
    (hreg : c.types = none ∨
      ∃ r, c.types = some r ∧ (typeDecs.map Prod.fst).Nodup ∧ NewRegistry L.codec typeDecs = .ok r)
    (hwrap : wrapEvent L c event n = .ok (e, n'))
    (hdata : event.Data = some d)
    (hbytes : c.types = none → d.rtype = .bytes)
    (hinv : Inverts (selectedCodec L c) d (decodeTarget c e.Typ)) :
    ∃ msg, packEvent L c subject e = .ok msg ∧
      UnpackEvent L c msg = .ok
        { ID := e.ID, Typ := e.Typ, Data := some (roundTripData c d), Subject := subject,
          Sequence := 0 } := by
  obtain ⟨d', hd', hed, _, _, _, _, _, hlook⟩ := wrapEvent_ok L c event e n n' hwrap
  have hdd : d' = d := by
    rw [hdata] at hd'
    exact (Option.some.inj hd').symm
  subst hdd
  obtain ⟨b, hmar, hun⟩ := hinv
  rcases hreg with hc | ⟨r, hc, hkeys, hnew⟩
  · have hsel : selectedCodec L c = L.codec.Binary := by simp only [selectedCodec, hc]
    rw [hsel] at hmar hun
    have hpack := packEvent_ok L c subject e b (by simp only [hc, hed, hmar])
    refine ⟨_, hpack, ?_⟩
    have hty : d'.rtype = .bytes := hbytes hc
    have hcod : L.codec.Codecs L.codec.Binary.Name = some L.codec.Binary := by
      simp [CodecPkg.Codecs]
    have hdec := hun ⟨.ptr .bytes, []⟩ (by simp only [decodeTarget, hc])
    have hval : (⟨.bytes, d'.state⟩ : Value) = d' := by
      obtain ⟨rt, st⟩ := d'
      simp only at hty
      rw [hty]
    simp only [UnpackEvent, UnpackEventT, header_get_codec, header_get_type, header_get_id, hsel,
      hcod, hc, hdec, roundTripData, hval]
    simp
  · obtain ⟨hl, _⟩ := hlook r hc
    obtain ⟨hcodec, v, hinit, hv⟩ := registry_lookup_init L.codec typeDecs r d' e.Typ hkeys hnew hl
    have hsel : selectedCodec L c = L.codec.JSON := by
      simp only [selectedCodec, hc, Registry.Codec, hcodec, CodecPkg.Default]
    rw [hsel] at hmar hun
    have hrm : r.Marshal e.Data = .ok b := by
      simp only [Registry.Marshal, hed, hl, hcodec, CodecPkg.Default, hmar]
    have hpack := packEvent_ok L c subject e b (by simp only [hc, hrm])
    refine ⟨_, hpack, ?_⟩
    have hcod : L.codec.Codecs L.codec.JSON.Name = some L.codec.JSON := by
      simp [CodecPkg.Codecs, hnames]
    have hdec := hun v (by simp only [decodeTarget, hc, hinit])
    have hval : ({ v with state := d'.state } : Value) = ⟨.ptr d'.rtype.pointee, d'.state⟩ := by
      rw [← hv]
    simp only [UnpackEvent, UnpackEventT, header_get_codec, header_get_type, header_get_id, hsel,
      hcod, hc, hinit, hdec, roundTripData, Option.map_some', hval]
    simp

/-- The test event on the client with the registry, the byte slice of `TestLib`
on the client without one, and the test event again under a codec that merges
into its target: packed and unpacked, each comes back with its ID and type and
with its data (for the struct, a pointer to an instance holding the same
state). -/
theorem C3_pack_unpack_round_trip_witness :
    (∃ msg, packEvent demoLib typedCeen "testevents.0" wrappedEvent = .ok msg ∧
      UnpackEvent demoLib typedCeen msg = .ok
        { ID := "nuid-0001", Typ := "test-event-created",
          Data := some (roundTripData typedCeen ⟨.ptr (.struct "TestEventCreated"), [1, 2, 3]⟩),
          Subject := "testevents.0", Sequence := 0 }) ∧
    (∃ msg, packEvent demoLib plainCeen "test_items.1" { bytesEvent with ID := "nuid-0001" }
        = .ok msg ∧
      UnpackEvent demoLib plainCeen msg = .ok
        { ID := "nuid-0001", Typ := "test_item",
          Data := some (roundTripData plainCeen ⟨.bytes, [102, 105, 114, 115, 116]⟩),
          Subject := "test_items.1", Sequence := 0 }) ∧
    (∃ msg, packEvent mergeLib mergeCeen "testevents.0" wrappedEvent = .ok msg ∧
      UnpackEvent mergeLib mergeCeen msg = .ok
        { ID := "nuid-0001", Typ := "test-event-created",
          Data := some (roundTripData mergeCeen ⟨.ptr (.struct "TestEventCreated"), [1, 2, 3]⟩),
          Subject := "testevents.0", Sequence := 0 }) :=
  ⟨C3_pack_unpack_round_trip demoLib typedCeen demoDecs "testevents.0" createdEvent wrappedEvent
      0 1 ⟨.ptr (.struct "TestEventCreated"), [1, 2, 3]⟩ (by decide)
      (Or.inr ⟨demoRegistry, rfl, by decide, rfl⟩) rfl rfl (fun h => by cases h)
      ⟨[1, 2, 3], rfl, fun _ hv => Option.some.inj hv ▸ rfl⟩,
    C3_pack_unpack_round_trip demoLib plainCeen [] "test_items.1" bytesEvent
      { bytesEvent with ID := "nuid-0001" } 0 1 ⟨.bytes, [102, 105, 114, 115, 116]⟩ (by decide)
      (Or.inl rfl) rfl rfl (fun _ => rfl)
      ⟨[102, 105, 114, 115, 116], rfl, fun _ hv => Option.some.inj hv ▸ rfl⟩,
    C3_pack_unpack_round_trip mergeLib mergeCeen demoDecs "testevents.0" createdEvent wrappedEvent
      0 1 ⟨.ptr (.struct "TestEventCreated"), [1, 2, 3]⟩ (by decide)
      (Or.inr ⟨mergeRegistry, rfl, by decide, rfl⟩) rfl rfl (fun h => by cases h)
      ⟨[1, 2, 3], rfl, fun _ hv => Option.some.inj hv ▸ rfl⟩⟩

/-- C3 (as stated) fails without a registry for data that is not a byte slice:
`wrapEvent` accepts the event, the raw-binary codec then refuses it, and with
any codec in the place of `codec.Binary` the data that comes back is a byte
slice, never the string that went in. -/
theorem C3_counterexample :
    wrapEvent demoLib plainCeen textEvent 0 = .ok ({ textEvent with ID := "nuid-0001" }, 1) ∧
    packEvent demoLib plainCeen "notes.1" { textEvent with ID := "nuid-0001" }
      = .error (.codecError "must be []byte") ∧
    ¬ ∃ (B : Codec) (msg : Msg) (e : Event),
      packEvent (libWith B) plainCeen "notes.1" { textEvent with ID := "nuid-0001" } = .ok msg ∧
      UnpackEvent (libWith B) plainCeen msg = .ok e ∧ e.Data = textEvent.Data := by
  refine ⟨rfl, rfl, ?_⟩
  rintro ⟨B, msg, e, _, hu, hd⟩
  obtain ⟨b, hb⟩ := unpack_plain_data (libWith B) plainCeen msg e rfl hu
  rw [hb] at hd
  simp [textEvent] at hd

/-! ## Load -/

theorem load_loop_until_target (L : Lib) (c : Ceen) (target : Nat) (mk : Msg) (ek : Event)
    (rest : List (Except String Msg))
    (hk : UnpackEvent L c mk = .ok ek) (hseq : ek.Sequence = target)
    (pre : List Msg) (evs : List Event)
    (hpre : List.Forall₂ (fun m ev => UnpackEvent L c m = .ok ev ∧ ev.Sequence ≠ target) pre evs) :
    ∀ acc, Load.loop L c target (pre.map .ok ++ .ok mk :: rest) acc
      = (.ok (acc ++ evs ++ [ek]), pre.length + 1) := by
  induction hpre with
  | nil =>
    intro acc
    simp [Load.loop, hk, hseq]
  | @cons m ev ms es hhead _ ih =>
    intro acc
    have hrec := ih (acc ++ [ev])
    simp only [List.map_cons, List.cons_append, Load.loop, hhead.1, if_neg hhead.2,
      List.length_cons]
    refine Prod.ext ?_ ?_
    · exact (congrArg Prod.fst hrec).trans (by simp)
    · exact congrArg (· + 1) (congrArg Prod.snd hrec)

/-- C2. When the point lookup resolves a target sequence `T > 0` and the
subscription delivers messages that unpack successfully, of which `mk` is the
first whose sequence is `T`, `Load` returns the events unpacked from the
messages up to and including `mk`, in delivery order, together with `T`; the
last event returned has sequence `T`, and `NextMsgWithContext` is called once
per returned event, so nothing after `mk` is consumed. -/
theorem C2_load_returns_events_up_to_target (L : Lib) (nc : Conn) (es : EventStore)
    (subject : String) (T : Nat) (pre : List Msg) (evs : List Event) (mk : Msg) (ek : Event)
    (rest : List (Except String Msg))
    (hT : 0 < T)
    (hlast : lastMsgForSubject L nc es subject = .ok (some ⟨T⟩))
    (hsub : nc.SubscribeSync subject = .ok (pre.map .ok ++ .ok mk :: rest))
    (hpre : List.Forall₂ (fun m ev => UnpackEvent L es.c m = .ok ev ∧ ev.Sequence ≠ T) pre evs)
    (hk : UnpackEvent L es.c mk = .ok ek) (hseq : ek.Sequence = T) :
    (Load L nc es subject).1 = .ok (evs ++ [ek], T) ∧
    (evs ++ [ek]).getLast? = some ek ∧ ek.Sequence = T ∧
    (Load L nc es subject).2 =
      [.request ("$JS.API.STREAM.MSG.GET." ++ es.name) (L.jsonMarshal ⟨subject⟩),
        .subscribe subject] ++ List.replicate (evs ++ [ek]).length .nextMsg ++ [.unsubscribe] := by
  have hloop := load_loop_until_target L es.c T mk ek rest hk hseq pre evs hpre []
  have hlen : pre.length = evs.length := hpre.length_eq
  have hne : T ≠ 0 := Nat.pos_iff_ne_zero.1 hT
  refine ⟨?_, by simp, hseq, ?_⟩
  · simp only [Load, hlast, hne, if_false, hsub, hloop, List.nil_append]
  · simp only [Load, hlast, hne, if_false, hsub, hloop, List.nil_append, List.length_append,
      List.length_singleton, hlen]

/-- A stream whose last message of the subject has sequence 2, and a
subscription that delivers the sequences 1, 2, 3: `Load` returns the first two
events and 2, after two `NextMsgWithContext` calls. -/
theorem C2_load_returns_events_up_to_target_witness :
    (Load demoLib (demoConn 2) typedStore "testevents.0").1
      = .ok ([loadedEvent 1] ++ [loadedEvent 2], 2) ∧
    ([loadedEvent 1] ++ [loadedEvent 2]).getLast? = some (loadedEvent 2) ∧
    (loadedEvent 2).Sequence = 2 ∧
    (Load demoLib (demoConn 2) typedStore "testevents.0").2 =
      [.request ("$JS.API.STREAM.MSG.GET." ++ typedStore.name)
          (demoLib.jsonMarshal ⟨"testevents.0"⟩),
        .subscribe "testevents.0"] ++
        List.replicate ([loadedEvent 1] ++ [loadedEvent 2]).length .nextMsg ++ [.unsubscribe] :=
  C2_load_returns_events_up_to_target demoLib (demoConn 2) typedStore "testevents.0" 2
    [delivered 1] [loadedEvent 1] (delivered 2) (loadedEvent 2) [.ok (delivered 3)]
    (by decide) rfl rfl (List.Forall₂.cons ⟨rfl, by decide⟩ List.Forall₂.nil) rfl rfl

/-- C4. When the point lookup is answered with an API error, `Load` makes the
request and nothing else: for code 404 it returns the empty list, sequence 0 and
no error, without subscribing; for any other code it returns the error built
from the description and the code. -/
theorem C4_load_of_lookup_error (L : Lib) (nc : Conn) (es : EventStore) (subject : String)
    (body : Bytes) (rep : natsGetMsgResponse) (apiErr : natsApiError)
    (hreq : nc.RequestWithContext ("$JS.API.STREAM.MSG.GET." ++ es.name)
      (L.jsonMarshal ⟨subject⟩) = .ok body)
    (hrep : L.jsonUnmarshal body = .ok rep)
    (herr : rep.Error = some apiErr) :
    (apiErr.Code = 404 → Load L nc es subject =
      (.ok ([], 0),
        [.request ("$JS.API.STREAM.MSG.GET." ++ es.name) (L.jsonMarshal ⟨subject⟩)])) ∧
    (apiErr.Code ≠ 404 → Load L nc es subject =
      (.error (.api apiErr.Description apiErr.Code),
        [.request ("$JS.API.STREAM.MSG.GET." ++ es.name) (L.jsonMarshal ⟨subject⟩)])) := by
  refine ⟨?_, ?_⟩
  · intro hcode
    simp only [Load, lastMsgForSubject, hreq, hrep, herr, hcode, if_true]
  · intro hcode
    simp only [Load, lastMsgForSubject, hreq, hrep, herr, hcode, if_false]

/-- A stream without a message of the subject answers with code 404: `Load`
returns the empty result after the request alone. -/
theorem C4_load_of_lookup_error_witness :
    ((⟨404, 0, "no message found"⟩ : natsApiError).Code = 404 →
      Load demoLib (demoConn 0) typedStore "testevents.0" =
        (.ok ([], 0),
          [.request ("$JS.API.STREAM.MSG.GET." ++ typedStore.name)
            (demoLib.jsonMarshal ⟨"testevents.0"⟩)])) ∧
    ((⟨404, 0, "no message found"⟩ : natsApiError).Code ≠ 404 →
      Load demoLib (demoConn 0) typedStore "testevents.0" =
        (.error (.api (⟨404, 0, "no message found"⟩ : natsApiError).Description
            (⟨404, 0, "no message found"⟩ : natsApiError).Code),
          [.request ("$JS.API.STREAM.MSG.GET." ++ typedStore.name)
            (demoLib.jsonMarshal ⟨"testevents.0"⟩)])) :=
  C4_load_of_lookup_error demoLib (demoConn 0) typedStore "testevents.0" [0, 404]
    ⟨"error", some ⟨404, 0, "no message found"⟩, none⟩ ⟨404, 0, "no message found"⟩ rfl rfl rfl

end CeenGo
